import Mathlib

/-!
Verification of the `uchinopower` smart-meter data-acquisition daemon.

This file embeds, in Lean, the parts of the Rust source that the checked
claims are about:

* the ECHONET Lite frame codec (`src/echonetlite/frame.rs`,
  `src/echonetlite/edata.rs`): big-endian fixed-width `bincode`
  encoding/decoding;
* the per-property decoders (`src/echonetlite/smart_electric_energy_meter.rs`,
  `src/echonetlite/superclass.rs`);
* the historical-record commit pipeline and the daemon's error-propagation
  policy (`src/bin/uchino_daqd.rs`);
* the IPv6 link-local derivation (`src/bin/uchino_daqd.rs`, `src/pairing.rs`);
* the SKSTACK line parser (`src/skstack/parser.rs`), modelled down to the
  behaviour of the nom combinators it uses (complete vs streaming variants).

Machine integers are represented as `Nat` (with explicit `% 2^w` at the
points where the Rust code truncates) and `Int` for signed reinterpretation.
Rust `Decimal` values are represented as `ℚ` (the nine unit constants and all
arithmetic performed on them here are exact decimals, so `ℚ` is faithful).
A Rust panic is modelled explicitly by the `RustOutcome.panic` constructor in
the decoders whose source contains a panicking path (`copy_from_slice`,
`Option::unwrap`).
-/

namespace Uchino

/-- Outcome of running a piece of Rust code that may panic:
either a value or a panic (`copy_from_slice` length mismatch,
`Option::unwrap` on `None`, index out of bounds). -/
inductive RustOutcome (α : Type) : Type
  | val (a : α) : RustOutcome α
  | panic : RustOutcome α
  deriving Repr, DecidableEq

/-! ## ECHONET Lite frame codec

From `src/echonetlite/edata.rs` and `src/echonetlite/frame.rs`.
Bytes are `Nat` that the well-formedness hypotheses bound by 256. -/

/-- `EchonetliteEdata` (`src/echonetlite/edata.rs`): one property entry.
`edt` is the borrowed byte slice, represented as a byte list. -/
structure EchonetliteEdata : Type where
  epc : Nat
  pdc : Nat
  edt : List Nat
  deriving Repr, DecidableEq

/-- `EchonetliteFrame` (`src/echonetlite/frame.rs`): the application frame.
`seoj`/`deoj` are the `[u8; 3]` object identifiers, kept as byte lists. -/
structure EchonetliteFrame : Type where
  ehd : Nat
  tid : Nat
  seoj : List Nat
  deoj : List Nat
  esv : Nat
  opc : Nat
  edata : List EchonetliteEdata
  deriving Repr, DecidableEq

/-- bincode big-endian fixed-int encoding of a `u16`: high byte then low byte. -/
def encodeU16 (v : Nat) : List Nat := [v / 256 % 256, v % 256]

/-- bincode encoding of a `u8`. -/
def encodeU8 (v : Nat) : List Nat := [v % 256]

/-- `EchonetliteEdata::encode`: EPC, PDC, then every EDT byte
(the Rust loop emits the whole `edt` slice, independently of `pdc`). -/
def EchonetliteEdata.encode (e : EchonetliteEdata) : List Nat :=
  encodeU8 e.epc ++ encodeU8 e.pdc ++ e.edt.map (· % 256)

/-- `EchonetliteFrame::encode`: big-endian header fields then the
property entries in order. -/
def EchonetliteFrame.encode (f : EchonetliteFrame) : List Nat :=
  encodeU16 f.ehd ++ encodeU16 f.tid ++ f.seoj.map (· % 256) ++
    f.deoj.map (· % 256) ++ encodeU8 f.esv ++ encodeU8 f.opc ++
    (f.edata.map EchonetliteEdata.encode).flatten

/-- bincode decode of a big-endian `u16`: consumes two bytes. -/
def decodeU16 : List Nat → Option (Nat × List Nat)
  | b0 :: b1 :: rest => some (b0 * 256 + b1, rest)
  | _ => none

/-- bincode decode of a `u8`: consumes one byte. -/
def decodeU8 : List Nat → Option (Nat × List Nat)
  | b :: rest => some (b, rest)
  | _ => none

/-- bincode decode of a `[u8; 3]`: consumes three bytes. -/
def decodeBytes3 : List Nat → Option (List Nat × List Nat)
  | b0 :: b1 :: b2 :: rest => some ([b0, b1, b2], rest)
  | _ => none

/-- `EchonetliteEdata::borrow_decode`: EPC byte, PDC byte, then a borrowed
slice of exactly `pdc` bytes (`take_bytes` fails when fewer remain). -/
def EchonetliteEdata.decode (bs : List Nat) : Option (EchonetliteEdata × List Nat) :=
  match bs with
  | epc :: pdc :: rest =>
      if pdc ≤ rest.length then
        some (⟨epc, pdc, rest.take pdc⟩, rest.drop pdc)
      else none
  | _ => none

/-- The `for _idx in 0..opc` loop of `EchonetliteFrame::borrow_decode`:
each `?` failure propagates, modelled by `Option.bind`. -/
def decodeEdataList : Nat → List Nat → Option (List EchonetliteEdata × List Nat)
  | 0, bs => some ([], bs)
  | n + 1, bs =>
      (EchonetliteEdata.decode bs).bind fun er =>
        (decodeEdataList n er.2).bind fun esr =>
          some (er.1 :: esr.1, esr.2)

/-- `EchonetliteFrame::borrow_decode`: header fields in order, then `opc`
property entries.  Returns the frame and the unconsumed suffix
(`borrow_decode_from_slice` reports the number of bytes read and tolerates
a trailing remainder). -/
def EchonetliteFrame.decode (bs : List Nat) : Option (EchonetliteFrame × List Nat) :=
  (decodeU16 bs).bind fun p1 =>
  (decodeU16 p1.2).bind fun p2 =>
  (decodeBytes3 p2.2).bind fun p3 =>
  (decodeBytes3 p3.2).bind fun p4 =>
  (decodeU8 p4.2).bind fun p5 =>
  (decodeU8 p5.2).bind fun p6 =>
  (decodeEdataList p6.1 p6.2).bind fun p7 =>
  some (⟨p1.1, p2.1, p3.1, p4.1, p5.1, p6.1, p7.1⟩, p7.2)

/-- All entries of a byte list are bytes. -/
def ByteList (bs : List Nat) : Prop := ∀ x ∈ bs, x < 256

instance : DecidablePred ByteList := fun bs =>
  decidable_of_iff (∀ x ∈ bs, x < 256) Iff.rfl

/-- The frame of scenario "Round-trip frame" of the spec (§8, scenario 4),
also the in-repo test `frame.rs::test1`. -/
def exampleFrame : EchonetliteFrame :=
  ⟨0x1081, 0x1234, [0x05, 0xff, 0x01], [0x02, 0x88, 0x01], 0x62, 1,
    [⟨0xe7, 0, []⟩]⟩

/-- Its 14-byte wire form. -/
def exampleFrameBytes : List Nat :=
  [0x10, 0x81, 0x12, 0x34, 0x05, 0xff, 0x01, 0x02, 0x88, 0x01, 0x62, 0x01,
    0xe7, 0x00]

lemma byteList_map_mod {l : List Nat} (h : ByteList l) : l.map (· % 256) = l := by
  induction l with
  | nil => rfl
  | cons a t ih =>
    simp only [List.map_cons]
    rw [Nat.mod_eq_of_lt (h a (by simp)), ih (fun x hx => h x (by simp [hx]))]

lemma byteList_cons {a : Nat} {l : List Nat} (h : ByteList (a :: l)) :
    a < 256 ∧ ByteList l :=
  ⟨h a (by simp), fun x hx => h x (by simp [hx])⟩

lemma edata_decode_encode {bs rest : List Nat} {e : EchonetliteEdata}
    (hb : ByteList bs) (h : EchonetliteEdata.decode bs = some (e, rest)) :
    e.encode ++ rest = bs ∧ ByteList rest := by
  cases bs with
  | nil => simp [EchonetliteEdata.decode] at h
  | cons epc tl0 =>
    cases tl0 with
    | nil => simp [EchonetliteEdata.decode] at h
    | cons pdc tl =>
      simp only [EchonetliteEdata.decode] at h
      by_cases hlen : pdc ≤ tl.length
      · rw [if_pos hlen] at h
        obtain ⟨he, hr⟩ := Prod.mk.injEq .. ▸ Option.some.injEq .. ▸ h
        obtain ⟨hepc, hb1⟩ := byteList_cons hb
        obtain ⟨hpdc, hb2⟩ := byteList_cons hb1
        have hbt : ByteList (tl.take pdc) :=
          fun x hx => hb2 x ((List.take_subset _ _) hx)
        subst hr
        constructor
        · rw [← he]
          simp only [EchonetliteEdata.encode, encodeU8,
            byteList_map_mod hbt, Nat.mod_eq_of_lt hepc, Nat.mod_eq_of_lt hpdc]
          simp [List.take_append_drop]
        · exact fun x hx => hb2 x ((List.drop_subset _ _) hx)
      · rw [if_neg hlen] at h
        exact absurd h (by simp)

lemma edataList_decode_encode {n : Nat} :
    ∀ {bs rest : List Nat} {es : List EchonetliteEdata},
    ByteList bs → decodeEdataList n bs = some (es, rest) →
    (es.map EchonetliteEdata.encode).flatten ++ rest = bs ∧
      ByteList rest ∧ es.length = n := by
  induction n with
  | zero =>
    intro bs rest es hb h
    simp only [decodeEdataList] at h
    obtain ⟨he, hr⟩ := Prod.mk.injEq .. ▸ Option.some.injEq .. ▸ h
    subst hr
    simp [← he, hb]
  | succ n ih =>
    intro bs rest es hb h
    simp only [decodeEdataList, Option.bind_eq_some] at h
    obtain ⟨⟨e, mid⟩, hd, ⟨⟨es', rest'⟩, hl, h⟩⟩ := h
    obtain ⟨he, hr⟩ := Prod.mk.injEq .. ▸ Option.some.injEq .. ▸ h
    subst hr
    obtain ⟨henc, hbmid⟩ := edata_decode_encode hb hd
    obtain ⟨henc', hbrest, hlen⟩ := ih hbmid hl
    refine ⟨?_, hbrest, by simp [← he, hlen]⟩
    rw [← he]
    simp only [List.map_cons, List.flatten_cons, List.append_assoc, henc']
    exact henc ▸ rfl

lemma decodeU16_encode {bs rest : List Nat} {v : Nat} (hb : ByteList bs)
    (h : decodeU16 bs = some (v, rest)) :
    encodeU16 v ++ rest = bs ∧ ByteList rest := by
  cases bs with
  | nil => simp [decodeU16] at h
  | cons b0 tl0 =>
    cases tl0 with
    | nil => simp [decodeU16] at h
    | cons b1 tl =>
      simp only [decodeU16, Option.some.injEq, Prod.mk.injEq] at h
      obtain ⟨hv, hr⟩ := h
      subst hr
      obtain ⟨h0, hb1⟩ := byteList_cons hb
      obtain ⟨h1, hb2⟩ := byteList_cons hb1
      refine ⟨?_, hb2⟩
      simp only [encodeU16, ← hv]
      have e0 : (b0 * 256 + b1) / 256 % 256 = b0 := by omega
      have e1 : (b0 * 256 + b1) % 256 = b1 := by omega
      rw [e0, e1]
      rfl

lemma decodeU8_encode {bs rest : List Nat} {v : Nat} (hb : ByteList bs)
    (h : decodeU8 bs = some (v, rest)) :
    encodeU8 v ++ rest = bs ∧ ByteList rest := by
  cases bs with
  | nil => simp [decodeU8] at h
  | cons b tl =>
    simp only [decodeU8, Option.some.injEq, Prod.mk.injEq] at h
    obtain ⟨hv, hr⟩ := h
    subst hr
    obtain ⟨h0, hb1⟩ := byteList_cons hb
    refine ⟨?_, hb1⟩
    simp [encodeU8, ← hv, Nat.mod_eq_of_lt h0]

lemma decodeBytes3_encode {bs rest v : List Nat} (hb : ByteList bs)
    (h : decodeBytes3 bs = some (v, rest)) :
    v.map (· % 256) ++ rest = bs ∧ ByteList rest := by
  cases bs with
  | nil => simp [decodeBytes3] at h
  | cons b0 tl0 =>
    cases tl0 with
    | nil => simp [decodeBytes3] at h
    | cons b1 tl1 =>
      cases tl1 with
      | nil => simp [decodeBytes3] at h
      | cons b2 tl =>
        simp only [decodeBytes3, Option.some.injEq, Prod.mk.injEq] at h
        obtain ⟨hv, hr⟩ := h
        subst hr
        obtain ⟨h0, hb1⟩ := byteList_cons hb
        obtain ⟨h1, hb2⟩ := byteList_cons hb1
        obtain ⟨h2, hb3⟩ := byteList_cons hb2
        refine ⟨?_, hb3⟩
        simp [← hv, Nat.mod_eq_of_lt h0, Nat.mod_eq_of_lt h1, Nat.mod_eq_of_lt h2]

/-- Decoding a byte string to a frame and re-encoding the decoded frame
reproduces exactly the consumed bytes. -/
lemma frame_decode_encode {bs rest : List Nat} {f : EchonetliteFrame}
    (hb : ByteList bs) (h : EchonetliteFrame.decode bs = some (f, rest)) :
    f.encode ++ rest = bs := by
  simp only [EchonetliteFrame.decode, Option.bind_eq_some] at h
  obtain ⟨⟨ehd, r1⟩, h1, ⟨tid, r2⟩, h2, ⟨seoj, r3⟩, h3, ⟨deoj, r4⟩, h4,
    ⟨esv, r5⟩, h5, ⟨opc, r6⟩, h6, ⟨edata, r7⟩, h7, h⟩ := h
  obtain ⟨hf, hr⟩ := Prod.mk.injEq .. ▸ Option.some.injEq .. ▸ h
  subst hr
  obtain ⟨e1, hb1⟩ := decodeU16_encode hb h1
  obtain ⟨e2, hb2⟩ := decodeU16_encode hb1 h2
  obtain ⟨e3, hb3⟩ := decodeBytes3_encode hb2 h3
  obtain ⟨e4, hb4⟩ := decodeBytes3_encode hb3 h4
  obtain ⟨e5, hb5⟩ := decodeU8_encode hb4 h5
  obtain ⟨e6, hb6⟩ := decodeU8_encode hb5 h6
  obtain ⟨e7, hb7, hlen⟩ := edataList_decode_encode hb6 h7
  rw [← hf]
  simp only [EchonetliteFrame.encode, List.append_assoc]
  rw [e7, e6, e5, e4, e3, e2, e1]

/-- C1.  For every well-formed ECHONET Lite frame byte string `b`
(it decodes completely: exactly OPC property entries, each carrying
`pdc`-many EDT bytes, with nothing left over, and carries EHD `0x1081`),
re-encoding the decoded frame yields `b` exactly; and the concrete frame
`{ehd 0x1081, tid 0x1234, seoj 05FF01, deoj 028801, esv 0x62, opc 1,
edata [{epc 0xE7, pdc 0, edt []}]}` encodes to precisely the 14 bytes
`10 81 12 34 05 FF 01 02 88 01 62 01 E7 00` and decoding those bytes
restores the frame. -/
theorem frame_roundtrip_and_example :
    (∀ (bs : List Nat) (f : EchonetliteFrame), ByteList bs →
      EchonetliteFrame.decode bs = some (f, []) → f.ehd = 0x1081 →
      f.encode = bs)
    ∧ exampleFrame.encode = exampleFrameBytes
    ∧ EchonetliteFrame.decode exampleFrameBytes = some (exampleFrame, []) := by
  refine ⟨fun bs f hb hdec _ => ?_, by decide, by decide⟩
  have := frame_decode_encode hb hdec
  simpa using this

/-- Witness for `frame_roundtrip_and_example`: its universal part applied to
the concrete 14-byte example frame, all hypotheses discharged by computation. -/
theorem frame_roundtrip_witness :
    EchonetliteFrame.encode exampleFrame = exampleFrameBytes :=
  frame_roundtrip_and_example.1 exampleFrameBytes exampleFrame
    (by decide) (by decide) (by decide)

/-! ## Per-property decoders

From `src/echonetlite/smart_electric_energy_meter.rs` and
`src/echonetlite/superclass.rs`.  The Rust decoders return
`Result<_, String>`; the message text is only ever logged, and its prefix
distinguishes the two kinds, so the model keeps the kind:
`BAD ...` (length/EPC mismatch) becomes `PropErr.badFormat` and
`UNKNOWN ...` (EPC dispatch exhausted) becomes `PropErr.unknownProperty`. -/

/-- Kind of a property-decoder error. -/
inductive PropErr : Type
  | badFormat
  | unknownProperty
  deriving Repr, DecidableEq

/-- `u32::from_be_bytes`. -/
def be4 (a b c d : Nat) : Nat := ((a * 256 + b) * 256 + c) * 256 + d

/-- Reinterpret a 32-bit unsigned value as two's-complement (`i32`). -/
def toI32 (v : Nat) : Int := if v < 2 ^ 31 then (v : Int) else (v : Int) - 2 ^ 32

/-- Reinterpret a 16-bit unsigned value as two's-complement (`i16`). -/
def toI16 (v : Nat) : Int := if v < 2 ^ 15 then (v : Int) else (v : Int) - 2 ^ 16

/-- `Coefficient::try_from` (EPC 0xD3): one byte, or empty meaning `1`. -/
def Coefficient.tryFrom (e : EchonetliteEdata) : Except PropErr Nat :=
  if e.epc = 0xd3 then
    match e.edt with
    | [a] => .ok a
    | [] => .ok 1
    | _ => .error .badFormat
  else .error .badFormat

/-- `NumberOfEffectiveDigits::try_from` (EPC 0xD7): exactly one byte. -/
def NumberOfEffectiveDigits.tryFrom (e : EchonetliteEdata) : Except PropErr Nat :=
  match e.edt with
  | [a] => if e.epc = 0xd7 then .ok a else .error .badFormat
  | _ => .error .badFormat

/-- `CumlativeAmountsPower::try_from` (EPC 0xE0): four big-endian bytes. -/
def CumlativeAmountsPower.tryFrom (e : EchonetliteEdata) : Except PropErr Nat :=
  match e.edt with
  | [a, b, c, d] => if e.epc = 0xe0 then .ok (be4 a b c d) else .error .badFormat
  | _ => .error .badFormat

/-- `UnitForCumlativeAmountsPower::try_from` (EPC 0xE1): one byte from the
nine admissible codes, mapped to an exact decimal (`Decimal::new(m, s)`
is the rational `m / 10 ^ s`). -/
def UnitForCumlativeAmountsPower.tryFrom (e : EchonetliteEdata) : Except PropErr ℚ :=
  match e.edt with
  | [u] =>
      if e.epc = 0xe1 then
        if u = 0x00 then .ok 1
        else if u = 0x01 then .ok (1 / 10)
        else if u = 0x02 then .ok (1 / 100)
        else if u = 0x03 then .ok (1 / 1000)
        else if u = 0x04 then .ok (1 / 10000)
        else if u = 0x0a then .ok 10
        else if u = 0x0b then .ok 100
        else if u = 0x0c then .ok 1000
        else if u = 0x0d then .ok 10000
        else .error .badFormat
      else .error .badFormat
  | _ => .error .badFormat

/-- `HistoricalCumlativeAmount` (EPC 0xE2): two-byte day index and the
decoded half-hour values (`None` encodes the no-data marker). -/
structure HistoricalCumlativeAmount : Type where
  n_days_ago : Nat
  historical : List (Option Nat)
  deriving Repr, DecidableEq

/-- `slice::chunks_exact(4)` followed by `u32::from_be_bytes` on each chunk:
the trailing remainder of fewer than four bytes is silently discarded. -/
def chunksExact4 : List Nat → List Nat
  | a :: b :: c :: d :: rest => be4 a b c d :: chunksExact4 rest
  | _ => []

/-- `HistoricalCumlativeAmount::try_from`: any EDT with at least the two
day-index bytes is accepted; each complete 4-byte group becomes one entry,
`0xFFFFFFFE` becoming `None`. -/
def HistoricalCumlativeAmount.tryFrom (e : EchonetliteEdata) :
    Except PropErr HistoricalCumlativeAmount :=
  match e.edt with
  | day0 :: day1 :: xs =>
      if e.epc = 0xe2 then
        .ok ⟨day0 * 256 + day1,
          (chunksExact4 xs).map fun v => if v = 0xfffffffe then none else some v⟩
      else .error .badFormat
  | _ => .error .badFormat

/-- `InstantiousPower::try_from` (EPC 0xE7): four bytes reinterpreted as a
two's-complement `i32` number of watts (negative values are valid). -/
def InstantiousPower.tryFrom (e : EchonetliteEdata) : Except PropErr Int :=
  match e.edt with
  | [a, b, c, d] =>
      if e.epc = 0xe7 then .ok (toI32 (be4 a b c d)) else .error .badFormat
  | _ => .error .badFormat

/-- `InstantiousCurrent::try_from` (EPC 0xE8): two big-endian `i16` values in
tenths of an ampere; a T-phase of `0x7FFE` denotes single-phase two-wire. -/
def InstantiousCurrent.tryFrom (e : EchonetliteEdata) :
    Except PropErr (ℚ × Option ℚ) :=
  match e.edt with
  | [a, b, c, d] =>
      if e.epc = 0xe8 then
        if toI16 (c * 256 + d) = 0x7ffe then
          .ok ((toI16 (a * 256 + b) : ℚ) / 10, none)
        else
          .ok ((toI16 (a * 256 + b) : ℚ) / 10,
            some ((toI16 (c * 256 + d) : ℚ) / 10))
      else .error .badFormat
  | _ => .error .badFormat

/-- Validity test of `NaiveDate::from_ymd_opt` followed by `and_hms_opt`
(proleptic Gregorian calendar, as chrono implements it). -/
def validYmdHms (y mo d h mi s : Nat) : Bool :=
  let leap := y % 4 = 0 ∧ (y % 100 ≠ 0 ∨ y % 400 = 0)
  let dim :=
    if mo = 2 then (if leap then 29 else 28)
    else if mo = 4 ∨ mo = 6 ∨ mo = 9 ∨ mo = 11 then 30
    else 31
  1 ≤ mo ∧ mo ≤ 12 ∧ 1 ≤ d ∧ d ≤ dim ∧ h ≤ 23 ∧ mi ≤ 59 ∧ s ≤ 59

/-- `CumlativeAmountsOfPowerAtFixedTime`: the meter's embedded local-civil
timestamp (the `NaiveDateTime` components) and the 4-byte counter. -/
structure CumlativeAmountsOfPowerAtFixedTime : Type where
  year : Nat
  month : Nat
  day : Nat
  hour : Nat
  minute : Nat
  second : Nat
  cumlative_amounts_power : Nat
  deriving Repr, DecidableEq

/-- `CumlativeAmountsOfPowerAtFixedTime::try_from` (EPC 0xEA): an 11-byte EDT
whose 7-byte timestamp passes through
`NaiveDate::from_ymd_opt(..).and_then(..and_hms_opt(..)).unwrap()` —
the `unwrap` panics when the embedded calendar date or time is invalid. -/
def CumlativeAmountsOfPowerAtFixedTime.tryFrom (e : EchonetliteEdata) :
    RustOutcome (Except PropErr CumlativeAmountsOfPowerAtFixedTime) :=
  match e.edt with
  | [y0, y1, mo, d, h, mi, s, c0, c1, c2, c3] =>
      if e.epc = 0xea then
        let year := y0 * 256 + y1
        if validYmdHms year mo d h mi s then
          .val (.ok ⟨year, mo, d, h, mi, s, be4 c0 c1 c2 c3⟩)
        else .panic
      else .val (.error .badFormat)
  | _ => .val (.error .badFormat)

/-- The fixed 16×8 lookup table of `GetPropertyMap::try_from`:
`table[row][col] = 0x80 + row + 0x10 * col`. -/
def propertyMapTable (row col : Nat) : Nat := 0x80 + row + 16 * col

/-- The bitmap branch of `GetPropertyMap::try_from` (first byte ≥ 16):
row-major scan of set bits through the table, then `sort`. -/
def bitmapDecode (props : List Nat) : List Nat :=
  ((List.range 16).flatMap fun row =>
    (List.range 8).filterMap fun col =>
      if (props.getD row 0).testBit col then some (propertyMapTable row col)
      else none).mergeSort (· ≤ ·)

/-- `GetPropertyMap::try_from` (EPC 0x9F).  The raw-list branch builds
`Vec::with_capacity(count)` — an *empty* vector — and then calls
`copy_from_slice(props)`, which panics unless both slices have the same
length, i.e. unless `props` is empty.  The bitmap branch indexes
`props[0..16]` and panics when fewer than 16 bytes follow the count. -/
def GetPropertyMap.tryFrom (e : EchonetliteEdata) :
    RustOutcome (Except PropErr (List Nat)) :=
  match e.edt with
  | count :: props =>
      if e.epc = 0x9f then
        if count < 16 then
          if props = [] then .val (.ok []) else .panic
        else
          if 16 ≤ props.length then .val (.ok (bitmapDecode props)) else .panic
      else .val (.error .badFormat)
  | [] => .val (.error .badFormat)

/-- `Manufacturer::try_from` (EPC 0x8A): exactly three bytes (the hex-string
rendering carries no further information, so the bytes are kept). -/
def Manufacturer.tryFrom (e : EchonetliteEdata) : Except PropErr (List Nat) :=
  match e.edt with
  | [a, b, c] => if e.epc = 0x8a then .ok [a, b, c] else .error .badFormat
  | _ => .error .badFormat

/-- `slice::chunks_exact(3)`: the under-3-byte remainder is discarded. -/
def chunksExact3 : List Nat → List (Nat × Nat × Nat)
  | a :: b :: c :: rest => (a, b, c) :: chunksExact3 rest
  | _ => []

/-- `NotifyInstances::try_from` (EPC 0xD5): a count byte followed by 3-byte
object identifiers; the count is stored but never cross-checked, and a
trailing remainder is discarded by `chunks_exact`. -/
def NotifyInstances.tryFrom (e : EchonetliteEdata) :
    Except PropErr (Nat × List (Nat × Nat × Nat)) :=
  match e.edt with
  | count :: data =>
      if e.epc = 0xd5 then .ok (count, chunksExact3 data) else .error .badFormat
  | _ => .error .badFormat

/-- C7.  For every one-byte unit EDT `u` with EPC 0xE1: if `u` is one of
`{0x00..0x04, 0x0A..0x0D}` the decoder yields the corresponding canonical
decimal from `{1, 0.1, 0.01, 0.001, 0.0001, 10, 100, 1000, 10000}` kWh;
for any other byte it returns a BadFormat error. -/
theorem unit_decode_characterization :
    UnitForCumlativeAmountsPower.tryFrom ⟨0xe1, 1, [0x00]⟩ = .ok 1
  ∧ UnitForCumlativeAmountsPower.tryFrom ⟨0xe1, 1, [0x01]⟩ = .ok (1 / 10)
  ∧ UnitForCumlativeAmountsPower.tryFrom ⟨0xe1, 1, [0x02]⟩ = .ok (1 / 100)
  ∧ UnitForCumlativeAmountsPower.tryFrom ⟨0xe1, 1, [0x03]⟩ = .ok (1 / 1000)
  ∧ UnitForCumlativeAmountsPower.tryFrom ⟨0xe1, 1, [0x04]⟩ = .ok (1 / 10000)
  ∧ UnitForCumlativeAmountsPower.tryFrom ⟨0xe1, 1, [0x0a]⟩ = .ok 10
  ∧ UnitForCumlativeAmountsPower.tryFrom ⟨0xe1, 1, [0x0b]⟩ = .ok 100
  ∧ UnitForCumlativeAmountsPower.tryFrom ⟨0xe1, 1, [0x0c]⟩ = .ok 1000
  ∧ UnitForCumlativeAmountsPower.tryFrom ⟨0xe1, 1, [0x0d]⟩ = .ok 10000
  ∧ (∀ u : Nat,
      u ∉ ([0x00, 0x01, 0x02, 0x03, 0x04, 0x0a, 0x0b, 0x0c, 0x0d] : List Nat) →
      UnitForCumlativeAmountsPower.tryFrom ⟨0xe1, 1, [u]⟩ = .error .badFormat) := by
  refine ⟨rfl, rfl, rfl, rfl, rfl, rfl, rfl, rfl, rfl, fun u hu => ?_⟩
  simp only [List.mem_cons, List.not_mem_nil, or_false, not_or] at hu
  obtain ⟨h0, h1, h2, h3, h4, ha, hb, hc, hd⟩ := hu
  simp [UnitForCumlativeAmountsPower.tryFrom, h0, h1, h2, h3, h4, ha, hb, hc, hd]

/-- Witness for `unit_decode_characterization`: the out-of-range byte `0x05`
decodes to a BadFormat error. -/
theorem unit_decode_witness :
    UnitForCumlativeAmountsPower.tryFrom ⟨0xe1, 1, [0x05]⟩ = .error .badFormat :=
  (unit_decode_characterization.2.2.2.2.2.2.2.2.2) 0x05 (by decide)

/-- C8.  For every 4-byte EDT with EPC 0xE7 the decoder yields the bytes
reinterpreted big-endian as a two's-complement 32-bit integer of watts
(`w ≡ be4 (mod 2^32)` with `-2^31 ≤ w < 2^31`); in particular
`00 00 01 F4` decodes to 500 W and `FF FF FF 9C` to −100 W. -/
theorem instant_power_decode :
    (∀ a b c d : Nat, a < 256 → b < 256 → c < 256 → d < 256 →
      ∃ w : Int, InstantiousPower.tryFrom ⟨0xe7, 4, [a, b, c, d]⟩ = .ok w ∧
        -(2 ^ 31) ≤ w ∧ w < 2 ^ 31 ∧
        w % 2 ^ 32 = ((be4 a b c d : Nat) : Int) % 2 ^ 32)
  ∧ InstantiousPower.tryFrom ⟨0xe7, 4, [0x00, 0x00, 0x01, 0xf4]⟩ = .ok 500
  ∧ InstantiousPower.tryFrom ⟨0xe7, 4, [0xff, 0xff, 0xff, 0x9c]⟩ = .ok (-100) := by
  refine ⟨fun a b c d ha hb hc hd => ⟨toI32 (be4 a b c d), rfl, ?_⟩,
    by norm_num [InstantiousPower.tryFrom, toI32, be4],
    by norm_num [InstantiousPower.tryFrom, toI32, be4]⟩
  have hv : be4 a b c d < 4294967296 := by simp only [be4]; omega
  have p31 : (2 : Int) ^ 31 = 2147483648 := by norm_num
  have p32 : (2 : Int) ^ 32 = 4294967296 := by norm_num
  have n31 : (2 : Nat) ^ 31 = 2147483648 := by norm_num
  simp only [toI32, p31, p32, n31]
  split
  · exact ⟨by omega, by omega, rfl⟩
  · refine ⟨by omega, by omega, ?_⟩
    rw [Int.sub_emod, Int.emod_self, sub_zero]
    exact Int.emod_emod_of_dvd _ dvd_rfl

/-- Witness for `instant_power_decode`: its universal part applied at the
concrete bytes `00 00 01 F4`, hypotheses discharged by computation. -/
theorem instant_power_witness :
    ∃ w : Int, InstantiousPower.tryFrom ⟨0xe7, 4, [0x00, 0x00, 0x01, 0xf4]⟩ = .ok w ∧
      -(2 ^ 31) ≤ w ∧ w < 2 ^ 31 ∧
      w % 2 ^ 32 = ((be4 0x00 0x00 0x01 0xf4 : Nat) : Int) % 2 ^ 32 :=
  instant_power_decode.1 0x00 0x00 0x01 0xf4 (by decide) (by decide)
    (by decide) (by decide)

/-- C2.  The cited per-property decoders are *not* total: the
get-property-map decoder (EPC 0x9F) panics on an EDT whose first byte N < 16
is followed by N ≥ 1 raw EPC bytes (`copy_from_slice` onto the zero-length
`Vec::with_capacity(N)`), and the cumulative-at-fixed-time decoder
(EPC 0xEA) panics on an 11-byte EDT whose 7-byte timestamp encodes an
invalid calendar date (`.unwrap()` of `from_ymd_opt == None`).  The same
decoders do return values on the well-formed variants of those inputs. -/
theorem property_decoder_panics :
    GetPropertyMap.tryFrom ⟨0x9f, 2, [0x01, 0x80]⟩ = .panic
  ∧ CumlativeAmountsOfPowerAtFixedTime.tryFrom
      ⟨0xea, 11, [0x07, 0xe9, 0x0d, 0x01, 0x00, 0x00, 0x00,
        0x00, 0x00, 0x00, 0x00]⟩ = .panic
  ∧ GetPropertyMap.tryFrom ⟨0x9f, 1, [0x00]⟩ = .val (.ok [])
  ∧ CumlativeAmountsOfPowerAtFixedTime.tryFrom
      ⟨0xea, 11, [0x07, 0xe9, 0x0c, 0x01, 0x00, 0x00, 0x00,
        0x00, 0x00, 0x00, 0x01]⟩
      = .val (.ok ⟨2025, 12, 1, 0, 0, 0, 1⟩) := by
  refine ⟨rfl, rfl, rfl, rfl⟩

/-- C3 counterexample.  The historical decoder (EPC 0xE2) accepts a 3-byte
EDT, and the instance-list decoder (EPC 0xD5) accepts a 4-byte EDT whose
count byte announces 2 instances (7 bytes), so "decoding succeeds iff the
length matches the catalogue row" is false. -/
theorem catalogue_length_counterexample :
    (HistoricalCumlativeAmount.tryFrom ⟨0xe2, 3, [0x00, 0x00, 0x01]⟩).isOk = true
  ∧ ([0x00, 0x00, 0x01] : List Nat).length ≠ 2 + 48 * 4
  ∧ (NotifyInstances.tryFrom ⟨0xd5, 4, [0x02, 0x01, 0x02, 0x03]⟩).isOk = true
  ∧ ([0x02, 0x01, 0x02, 0x03] : List Nat).length ≠ 1 + 2 * 3 := by
  refine ⟨rfl, by decide, rfl, by decide⟩

/-- C3 (amended).  Per-EPC length admission as the code implements it:
0xE2 succeeds on any EDT of length ≥ 2 (complete 4-byte groups are decoded
and the remainder ignored), 0xD5 on any length ≥ 1 (the count byte is not
cross-checked), 0xD3 on length ≤ 1, and the fixed-width rows 0x8A, 0xD7,
0xE0, 0xE7, 0xE8 exactly on their catalogue lengths; in every failing case
the decoder returns a BadFormat error. -/
theorem catalogue_length_characterization :
    (∀ pdc : Nat, ∀ edt : List Nat,
      (2 ≤ edt.length ∧ (HistoricalCumlativeAmount.tryFrom ⟨0xe2, pdc, edt⟩).isOk = true)
      ∨ (edt.length < 2 ∧ HistoricalCumlativeAmount.tryFrom ⟨0xe2, pdc, edt⟩ = .error .badFormat))
  ∧ (∀ pdc : Nat, ∀ edt : List Nat,
      (1 ≤ edt.length ∧ (NotifyInstances.tryFrom ⟨0xd5, pdc, edt⟩).isOk = true)
      ∨ (edt.length = 0 ∧ NotifyInstances.tryFrom ⟨0xd5, pdc, edt⟩ = .error .badFormat))
  ∧ (∀ pdc : Nat, ∀ edt : List Nat,
      (edt.length ≤ 1 ∧ (Coefficient.tryFrom ⟨0xd3, pdc, edt⟩).isOk = true)
      ∨ (2 ≤ edt.length ∧ Coefficient.tryFrom ⟨0xd3, pdc, edt⟩ = .error .badFormat))
  ∧ (∀ pdc : Nat, ∀ edt : List Nat,
      (edt.length = 3 ∧ (Manufacturer.tryFrom ⟨0x8a, pdc, edt⟩).isOk = true)
      ∨ (edt.length ≠ 3 ∧ Manufacturer.tryFrom ⟨0x8a, pdc, edt⟩ = .error .badFormat))
  ∧ (∀ pdc : Nat, ∀ edt : List Nat,
      (edt.length = 1 ∧ (NumberOfEffectiveDigits.tryFrom ⟨0xd7, pdc, edt⟩).isOk = true)
      ∨ (edt.length ≠ 1 ∧ NumberOfEffectiveDigits.tryFrom ⟨0xd7, pdc, edt⟩ = .error .badFormat))
  ∧ (∀ pdc : Nat, ∀ edt : List Nat,
      (edt.length = 4 ∧ (CumlativeAmountsPower.tryFrom ⟨0xe0, pdc, edt⟩).isOk = true)
      ∨ (edt.length ≠ 4 ∧ CumlativeAmountsPower.tryFrom ⟨0xe0, pdc, edt⟩ = .error .badFormat))
  ∧ (∀ pdc : Nat, ∀ edt : List Nat,
      (edt.length = 4 ∧ (InstantiousPower.tryFrom ⟨0xe7, pdc, edt⟩).isOk = true)
      ∨ (edt.length ≠ 4 ∧ InstantiousPower.tryFrom ⟨0xe7, pdc, edt⟩ = .error .badFormat))
  ∧ (∀ pdc : Nat, ∀ edt : List Nat,
      (edt.length = 4 ∧ (InstantiousCurrent.tryFrom ⟨0xe8, pdc, edt⟩).isOk = true)
      ∨ (edt.length ≠ 4 ∧ InstantiousCurrent.tryFrom ⟨0xe8, pdc, edt⟩ = .error .badFormat)) := by
  refine ⟨fun pdc edt => ?_, fun pdc edt => ?_, fun pdc edt => ?_, fun pdc edt => ?_,
    fun pdc edt => ?_, fun pdc edt => ?_, fun pdc edt => ?_, fun pdc edt => ?_⟩
  · match edt with
    | [] => right; simp [HistoricalCumlativeAmount.tryFrom]
    | [x] => right; simp [HistoricalCumlativeAmount.tryFrom]
    | x :: y :: r => left; simp [HistoricalCumlativeAmount.tryFrom, Except.isOk, Except.toBool]
  · match edt with
    | [] => right; simp [NotifyInstances.tryFrom]
    | x :: r => left; simp [NotifyInstances.tryFrom, Except.isOk, Except.toBool]
  · match edt with
    | [] => left; simp [Coefficient.tryFrom, Except.isOk, Except.toBool]
    | [x] => left; simp [Coefficient.tryFrom, Except.isOk, Except.toBool]
    | x :: y :: r => right; simp [Coefficient.tryFrom]
  · match edt with
    | [x, y, z] => left; simp [Manufacturer.tryFrom, Except.isOk, Except.toBool]
    | [] => right; simp [Manufacturer.tryFrom]
    | [x] => right; simp [Manufacturer.tryFrom]
    | [x, y] => right; simp [Manufacturer.tryFrom]
    | x :: y :: z :: w :: r => right; simp [Manufacturer.tryFrom]
  · match edt with
    | [x] => left; simp [NumberOfEffectiveDigits.tryFrom, Except.isOk, Except.toBool]
    | [] => right; simp [NumberOfEffectiveDigits.tryFrom]
    | x :: y :: r => right; simp [NumberOfEffectiveDigits.tryFrom]
  · match edt with
    | [a, b, c, d] => left; simp [CumlativeAmountsPower.tryFrom, Except.isOk, Except.toBool]
    | [] => right; simp [CumlativeAmountsPower.tryFrom]
    | [a] => right; simp [CumlativeAmountsPower.tryFrom]
    | [a, b] => right; simp [CumlativeAmountsPower.tryFrom]
    | [a, b, c] => right; simp [CumlativeAmountsPower.tryFrom]
    | a :: b :: c :: d :: e :: r => right; simp [CumlativeAmountsPower.tryFrom]
  · match edt with
    | [a, b, c, d] => left; simp [InstantiousPower.tryFrom, Except.isOk, Except.toBool]
    | [] => right; simp [InstantiousPower.tryFrom]
    | [a] => right; simp [InstantiousPower.tryFrom]
    | [a, b] => right; simp [InstantiousPower.tryFrom]
    | [a, b, c] => right; simp [InstantiousPower.tryFrom]
    | a :: b :: c :: d :: e :: r => right; simp [InstantiousPower.tryFrom]
  · match edt with
    | [a, b, c, d] =>
        left
        refine ⟨rfl, ?_⟩
        rcases eq_or_ne (toI16 (c * 256 + d)) 0x7ffe with h | h <;>
          simp [InstantiousCurrent.tryFrom, h, Except.isOk, Except.toBool]
    | [] => right; simp [InstantiousCurrent.tryFrom]
    | [a] => right; simp [InstantiousCurrent.tryFrom]
    | [a, b] => right; simp [InstantiousCurrent.tryFrom]
    | [a, b, c] => right; simp [InstantiousCurrent.tryFrom]
    | a :: b :: c :: d :: e :: r => right; simp [InstantiousCurrent.tryFrom]

/-! ## IPv6 link-local derivation

From `src/bin/uchino_daqd.rs` (`exec_data_acquisition`) and
`src/pairing.rs`:
`Ipv6Addr::from_bits(0xFE80_0000_0000_0000u128 << 64 | (mac as u128 ^ 0x0200_0000_0000_0000u128))`. -/

/-- The sender address computed from the meter's 64-bit MAC address. -/
def deriveLinkLocal (mac : Nat) : Nat :=
  (0xFE80000000000000 <<< 64) ||| (mac ^^^ 0x0200000000000000)

lemma mul_two_pow_lor :
    ∀ (n c L : Nat), L < 2 ^ n → (c * 2 ^ n) ||| L = c * 2 ^ n + L := by
  intro n
  induction n with
  | zero =>
    intro c L hL
    have h0 : L = 0 := by simpa using Nat.lt_one_iff.mp (by simpa using hL)
    simp [h0]
  | succ n ih =>
    intro c L hL
    have hsplit : c * 2 ^ (n + 1) = 2 * (c * 2 ^ n) := by ring
    have h2 : (2 : Nat) ^ (n + 1) = 2 * 2 ^ n := by ring
    have hL2 : L >>> 1 < 2 ^ n := by
      rw [Nat.shiftRight_one]
      omega
    have hLbit : 2 * (L >>> 1) + (L.testBit 0).toNat = L := by
      rw [← Nat.bit_val, Nat.bit_testBit_zero_shiftRight_one]
    have hHbit : Nat.bit false (c * 2 ^ n) = c * 2 ^ (n + 1) := by
      rw [Nat.bit_val, hsplit]
      simp
    have hLdec : Nat.bit (L.testBit 0) (L >>> 1) = L :=
      Nat.bit_testBit_zero_shiftRight_one L
    calc c * 2 ^ (n + 1) ||| L
        = Nat.bit false (c * 2 ^ n) ||| Nat.bit (L.testBit 0) (L >>> 1) := by
          rw [hHbit, hLdec]
      _ = Nat.bit (false || L.testBit 0) (c * 2 ^ n ||| L >>> 1) :=
          Nat.lor_bit false (c * 2 ^ n) (L.testBit 0) (L >>> 1)
      _ = Nat.bit (L.testBit 0) (c * 2 ^ n + L >>> 1) := by
          rw [ih c (L >>> 1) hL2, Bool.false_or]
      _ = c * 2 ^ (n + 1) + L := by
          rw [Nat.bit_val, hsplit]
          generalize c * 2 ^ n = u
          omega

/-- C9.  For every 64-bit MAC address `m`, the derived link-local address has
upper 64 bits `0xFE80000000000000` (the `fe80::/64` prefix) and lower 64 bits
`m XOR 0x0200_0000_0000_0000` (the universal/local bit of the first octet
inverted), so XORing the lower 64 bits with the same constant restores `m`. -/
theorem ipv6_derivation (mac : Nat) (hmac : mac < 2 ^ 64) :
    deriveLinkLocal mac / 2 ^ 64 = 0xFE80000000000000
  ∧ deriveLinkLocal mac % 2 ^ 64 = mac ^^^ 0x0200000000000000
  ∧ (deriveLinkLocal mac % 2 ^ 64) ^^^ 0x0200000000000000 = mac := by
  have hconst : (0x0200000000000000 : Nat) < 2 ^ 64 := by norm_num
  have hxor : mac ^^^ 0x0200000000000000 < 2 ^ 64 :=
    Nat.xor_lt_two_pow hmac hconst
  have heq : deriveLinkLocal mac =
      0xFE80000000000000 * 2 ^ 64 + (mac ^^^ 0x0200000000000000) := by
    rw [deriveLinkLocal, Nat.shiftLeft_eq, mul_two_pow_lor 64 _ _ hxor]
  have hdiv : deriveLinkLocal mac / 2 ^ 64 = 0xFE80000000000000 := by
    rw [heq]
    generalize hx : mac ^^^ 0x0200000000000000 = r at hxor ⊢
    have p64 : (2 : Nat) ^ 64 = 18446744073709551616 := by norm_num
    rw [p64] at hxor ⊢
    omega
  have hmod : deriveLinkLocal mac % 2 ^ 64 = mac ^^^ 0x0200000000000000 := by
    rw [heq]
    generalize hx : mac ^^^ 0x0200000000000000 = r at hxor ⊢
    have p64 : (2 : Nat) ^ 64 = 18446744073709551616 := by norm_num
    rw [p64] at hxor ⊢
    omega
  exact ⟨hdiv, hmod, by rw [hmod]; exact Nat.xor_cancel_right _ _⟩

/-- Witness for `ipv6_derivation`: the derivation at the concrete MAC address
`0x001D129012345678`, hypothesis discharged by computation. -/
theorem ipv6_derivation_witness :
    deriveLinkLocal 0x001D129012345678 / 2 ^ 64 = 0xFE80000000000000
  ∧ deriveLinkLocal 0x001D129012345678 % 2 ^ 64
      = 0x001D129012345678 ^^^ 0x0200000000000000
  ∧ (deriveLinkLocal 0x001D129012345678 % 2 ^ 64) ^^^ 0x0200000000000000
      = 0x001D129012345678 :=
  ipv6_derivation 0x001D129012345678 (by norm_num)

/-! ## Historical-record commit pipeline

From `commit_historical_cumlative_amount` in `src/bin/uchino_daqd.rs`.
Timestamps are modelled as minutes on the UTC time line (`Int`); the
deployment timezone Asia/Tokyo is the fixed offset UTC+9 (540 minutes) for
every instant the daemon can encounter, and a civil day is 1440 minutes.
`todayDay` is the JST day number (days since the epoch of the civil
calendar) of `Utc::now().with_timezone(&Asia::Tokyo)`. -/

/-- The instant assigned to half-hour bucket `k`: midnight Asia/Tokyo of
(today − `nDaysAgo` days), normalised to UTC, plus `k`·30 minutes
(`checked_sub_days` and the `timeserial` iterator of the source). -/
def historicalTimestamp (todayDay : Int) (nDaysAgo : Nat) (k : Nat) : Int :=
  ((todayDay - nDaysAgo) * 1440 - 540) + 30 * k

/-- The row list built by `commit_historical_cumlative_amount`:
`hist.historical.iter().zip(timeserial).map(..).flatten()`, each present
value scaled by the unit into kWh. -/
def commitHistoricalRows (todayDay : Int) (unit : ℚ)
    (hist : HistoricalCumlativeAmount) : List (Int × ℚ) :=
  (hist.historical.enum.map fun p =>
    p.2.map fun v : Nat =>
      (historicalTimestamp todayDay hist.n_days_ago p.1, (v : ℚ) * unit)).reduceOption

lemma chunksExact4_length : ∀ xs : List Nat,
    (chunksExact4 xs).length = xs.length / 4
  | [] => by simp [chunksExact4]
  | [_] => by simp [chunksExact4]
  | [_, _] => by simp [chunksExact4]
  | [_, _, _] => by simp [chunksExact4]
  | a :: b :: c :: d :: rest => by
      simp only [chunksExact4, List.length_cons, chunksExact4_length rest]
      omega

/-- Shape of the zip/flatten pipeline over a decoded chunk list:
elision of the sentinel commutes with pairing values to bucket indices. -/
lemma reduceOption_enumFrom_eq_filterMap (ts : Nat → Int) (u : ℚ) (S : Nat) :
    ∀ (l : List Nat) (n0 : Nat),
    (((l.map fun v => if v = S then none else some v).enumFrom n0).map fun p =>
        p.2.map fun v : Nat => (ts p.1, (v : ℚ) * u)).reduceOption
      = (l.enumFrom n0).filterMap fun p =>
          if p.2 = S then none else some (ts p.1, (p.2 : ℚ) * u) := by
  intro l
  induction l with
  | nil => intro n0; rfl
  | cons a l ih =>
    intro n0
    by_cases hs : a = S
    · simp [hs, List.enumFrom_cons, List.reduceOption_cons_of_none, ih]
    · simp [hs, List.enumFrom_cons, List.reduceOption_cons_of_some, ih]

lemma filterMap_enumFrom_mem (ts : Nat → Int) (u : ℚ) (S : Nat) :
    ∀ (l : List Nat) (n0 : Nat) (x : Int × ℚ),
    x ∈ ((l.enumFrom n0).filterMap fun p =>
        if p.2 = S then none else some (ts p.1, (p.2 : ℚ) * u)) →
    ∃ k, n0 ≤ k ∧ k < n0 + l.length ∧ x.1 = ts k := by
  intro l
  induction l with
  | nil => intro n0 x hx; simp at hx
  | cons a l ih =>
    intro n0 x hx
    by_cases hs : a = S
    · simp only [List.enumFrom_cons, List.filterMap_cons, hs, if_pos rfl] at hx
      obtain ⟨k, hk1, hk2, hk3⟩ := ih (n0 + 1) x hx
      exact ⟨k, by omega, by simp only [List.length_cons]; omega, hk3⟩
    · simp only [List.enumFrom_cons, List.filterMap_cons, if_neg hs,
        List.mem_cons] at hx
      rcases hx with hx | hx
      · exact ⟨n0, le_refl _, by simp only [List.length_cons]; omega,
          by rw [hx]⟩
      · obtain ⟨k, hk1, hk2, hk3⟩ := ih (n0 + 1) x hx
        exact ⟨k, by omega, by simp only [List.length_cons]; omega, hk3⟩

lemma filterMap_enumFrom_pairwise (ts : Nat → Int) (u : ℚ) (S : Nat)
    (hmono : ∀ i j : Nat, i < j → ts i < ts j) :
    ∀ (l : List Nat) (n0 : Nat),
    List.Pairwise (· < ·)
      (((l.enumFrom n0).filterMap fun p =>
        if p.2 = S then none else some (ts p.1, (p.2 : ℚ) * u)).map Prod.fst) := by
  intro l
  induction l with
  | nil => intro n0; simp
  | cons a l ih =>
    intro n0
    by_cases hs : a = S
    · simpa [List.enumFrom_cons, List.filterMap_cons, hs] using ih (n0 + 1)
    · simp only [List.enumFrom_cons, List.filterMap_cons, if_neg hs,
        List.map_cons, List.pairwise_cons]
      refine ⟨fun t ht => ?_, ih (n0 + 1)⟩
      obtain ⟨x, hx, hfst⟩ := List.mem_map.mp ht
      obtain ⟨k, hk1, _, hk3⟩ := filterMap_enumFrom_mem ts u S l (n0 + 1) x hx
      rw [← hfst, hk3]
      exact hmono n0 k (by omega)

lemma filterMap_enumFrom_nosentinel (ts : Nat → Int) (u : ℚ) (S : Nat) :
    ∀ (l : List Nat) (n0 : Nat), (∀ v ∈ l, v ≠ S) →
    ((l.enumFrom n0).filterMap fun p =>
        if p.2 = S then none else some (ts p.1, (p.2 : ℚ) * u)).map Prod.fst
      = (List.range' n0 l.length).map ts := by
  intro l
  induction l with
  | nil => intro n0 _; rfl
  | cons a l ih =>
    intro n0 hv
    have ha : a ≠ S := hv a (by simp)
    simp only [List.enumFrom_cons, List.filterMap_cons, if_neg ha,
      List.map_cons, List.length_cons, List.range'_succ]
    rw [ih (n0 + 1) fun v hm => hv v (by simp [hm])]

/-- C6.  For every EPC 0xE2 EDT of length 2 + 48·4 decoding to `hist` and
committed with unit scale `u`: the emitted rows are exactly the decoded
4-byte groups different from the no-data marker `0xFFFFFFFE`, each scaled by
`u` to kWh, bucket `k` stamped with midnight Asia/Tokyo of
(today − days-ago) plus `k`·30 minutes normalised to UTC; hence the emitted
timestamps are strictly increasing on the 30-minute grid, and exactly
30 minutes apart when no group is elided. -/
theorem historical_commit_pipeline :
    ∀ (todayDay : Int) (unit : ℚ) (pdcv : Nat) (edt : List Nat)
      (hist : HistoricalCumlativeAmount),
    edt.length = 2 + 48 * 4 →
    HistoricalCumlativeAmount.tryFrom ⟨0xe2, pdcv, edt⟩ = .ok hist →
    (commitHistoricalRows todayDay unit hist
        = (chunksExact4 (edt.drop 2)).enum.filterMap fun p =>
            if p.2 = 0xfffffffe then none
            else some (historicalTimestamp todayDay hist.n_days_ago p.1,
              (p.2 : ℚ) * unit))
    ∧ (chunksExact4 (edt.drop 2)).length = 48
    ∧ List.Pairwise (· < ·)
        ((commitHistoricalRows todayDay unit hist).map Prod.fst)
    ∧ (∀ t ∈ (commitHistoricalRows todayDay unit hist).map Prod.fst,
        ∃ k, k < 48 ∧ t = historicalTimestamp todayDay hist.n_days_ago k)
    ∧ ((∀ v ∈ chunksExact4 (edt.drop 2), v ≠ 0xfffffffe) →
        (commitHistoricalRows todayDay unit hist).map Prod.fst
          = (List.range 48).map (historicalTimestamp todayDay hist.n_days_ago)) := by
  intro todayDay unit pdcv edt hist hlen hdec
  obtain ⟨nd, hlist⟩ := hist
  rcases edt with _ | ⟨d0, _ | ⟨d1, xs⟩⟩
  · simp at hlen
  · simp at hlen
  · have hxs : xs.length = 192 := by
      simp only [List.length_cons] at hlen
      omega
    simp only [HistoricalCumlativeAmount.tryFrom, if_pos rfl, Except.ok.injEq,
      HistoricalCumlativeAmount.mk.injEq] at hdec
    obtain ⟨hnd, hhist⟩ := hdec
    dsimp only [List.drop]
    have hmono : ∀ i j : Nat, i < j →
        historicalTimestamp todayDay (d0 * 256 + d1) i
          < historicalTimestamp todayDay (d0 * 256 + d1) j := by
      intro i j hij
      simp only [historicalTimestamp]
      omega
    have hlen4 : (chunksExact4 xs).length = 48 := by
      rw [chunksExact4_length, hxs]
    have hrows : commitHistoricalRows todayDay unit
        ⟨d0 * 256 + d1,
          (chunksExact4 xs).map fun v => if v = 0xfffffffe then none else some v⟩
        = ((chunksExact4 xs).enumFrom 0).filterMap fun p =>
            if p.2 = 0xfffffffe then none
            else some (historicalTimestamp todayDay (d0 * 256 + d1) p.1,
              (p.2 : ℚ) * unit) := by
      simp only [commitHistoricalRows]
      exact reduceOption_enumFrom_eq_filterMap _ unit 0xfffffffe (chunksExact4 xs) 0
    refine ⟨?_, ?_, ?_, ?_, ?_⟩
    · exact hrows
    · exact hlen4
    · rw [hrows]
      exact filterMap_enumFrom_pairwise _ unit _ hmono (chunksExact4 xs) 0
    · intro t ht
      rw [hrows] at ht
      obtain ⟨x, hx, hfst⟩ := List.mem_map.mp ht
      obtain ⟨k, _, hk2, hk3⟩ :=
        filterMap_enumFrom_mem _ unit 0xfffffffe (chunksExact4 xs) 0 x hx
      exact ⟨k, by omega, by rw [← hfst, hk3]⟩
    · intro hno
      rw [hrows, filterMap_enumFrom_nosentinel _ unit _ (chunksExact4 xs) 0 hno,
        hlen4, List.range_eq_range']

/-- A concrete EPC 0xE2 EDT: day index 0 and 48 half-hour buckets, all zero. -/
def exampleHistEdt : List Nat := 0 :: 0 :: List.replicate 192 0

/-- Its decoded form. -/
def exampleHist : HistoricalCumlativeAmount := ⟨0, List.replicate 48 (some 0)⟩

set_option maxRecDepth 4000 in
/-- Witness for `historical_commit_pipeline`: the monotonicity conjunct at a
concrete all-present EDT, hypotheses discharged by computation. -/
theorem historical_commit_witness :
    List.Pairwise (· < ·)
      ((commitHistoricalRows 20000 (1 / 10) exampleHist).map Prod.fst) :=
  (historical_commit_pipeline 20000 (1 / 10) 0 exampleHistEdt exampleHist
    (by decide) (by rfl)).2.2.1

/-! ## Receiver and supervisor error policy

From `src/bin/uchino_daqd.rs`: `DaqDaemonError`, `commit_to_database`,
`rx_erxudp`, `smartmeter_receiver` and the restart loop in `main`.
The persistence sink (sqlx) is modelled as an oracle from commit operations
to success or a database error; the wall-clock `recorded_at` computation is
dropped (with the fixed-offset Asia/Tokyo zone `with_ymd_and_hms(..).single()`
is always `Some` for the dates the daemon can encounter). -/

/-- `DaqDaemonError` (`src/bin/uchino_daqd.rs`), payloads elided where the
policy does not inspect them. -/
inductive DaqDaemonError : Type
  | io
  | binaryEncode
  | cron
  | outOfRange
  | serialPort
  | database
  | invalidId
  | invalidPassword
  | invalidMacAddress
  | commandFail (code : Nat)
  | panaSessionDisconnected
  | other
  deriving Repr, DecidableEq

/-- The smart-meter property variant (`SM::Properties`). -/
inductive SMProperty : Type
  | coefficient (v : Nat)
  | effectiveDigits (v : Nat)
  | cumlativeAmounts (v : Nat)
  | unit (u : ℚ)
  | historical (h : HistoricalCumlativeAmount)
  | instantPower (w : Int)
  | instantCurrent (r : ℚ) (t : Option ℚ)
  | fixedTime (f : CumlativeAmountsOfPowerAtFixedTime)
  deriving Repr, DecidableEq

/-- `SM::Properties::try_from`: the if-let chain over the eight per-property
decoders, in source order; the final fall-through is the UNKNOWN error.
Only the 0xEA decoder can panic, which the chain propagates. -/
def SMProperties.tryFrom (e : EchonetliteEdata) :
    RustOutcome (Except PropErr SMProperty) :=
  match Coefficient.tryFrom e with
  | .ok a => .val (.ok (.coefficient a))
  | .error _ =>
  match NumberOfEffectiveDigits.tryFrom e with
  | .ok a => .val (.ok (.effectiveDigits a))
  | .error _ =>
  match CumlativeAmountsPower.tryFrom e with
  | .ok a => .val (.ok (.cumlativeAmounts a))
  | .error _ =>
  match UnitForCumlativeAmountsPower.tryFrom e with
  | .ok a => .val (.ok (.unit a))
  | .error _ =>
  match HistoricalCumlativeAmount.tryFrom e with
  | .ok a => .val (.ok (.historical a))
  | .error _ =>
  match InstantiousPower.tryFrom e with
  | .ok a => .val (.ok (.instantPower a))
  | .error _ =>
  match InstantiousCurrent.tryFrom e with
  | .ok a => .val (.ok (.instantCurrent a.1 a.2))
  | .error _ =>
  match CumlativeAmountsOfPowerAtFixedTime.tryFrom e with
  | .panic => .panic
  | .val (.ok a) => .val (.ok (.fixedTime a))
  | .val (.error _) => .val (.error .unknownProperty)

/-- A write against one of the four append-only tables. -/
inductive SinkOp : Type
  | instantPower (w : Int)
  | instantCurrent (r : ℚ) (t : Option ℚ)
  | cumlativeAtFixedTime (kwh : ℚ)
  | historical (rows : List (Int × ℚ))

/-- The persistence sink: succeeds or reports a database error. -/
def Sink : Type := SinkOp → Except Unit Unit

/-- One iteration of the `for edata in frame.edata` loop of
`commit_to_database`: decode the property, commit the four persisted
variants through the sink (`?` maps a sqlx error to `Database`), log and
skip unknown properties and the non-persisted variants. -/
def commitEdata (sink : Sink) (todayDay : Int) (unit : ℚ)
    (e : EchonetliteEdata) : RustOutcome (Except DaqDaemonError Unit) :=
  match SMProperties.tryFrom e with
  | .panic => .panic
  | .val (.error _) => .val (.ok ())
  | .val (.ok p) =>
    match p with
    | .historical h =>
        match sink (.historical (commitHistoricalRows todayDay unit h)) with
        | .ok () => .val (.ok ())
        | .error () => .val (.error .database)
    | .instantPower w =>
        match sink (.instantPower w) with
        | .ok () => .val (.ok ())
        | .error () => .val (.error .database)
    | .instantCurrent r t =>
        match sink (.instantCurrent r t) with
        | .ok () => .val (.ok ())
        | .error () => .val (.error .database)
    | .fixedTime f =>
        match sink (.cumlativeAtFixedTime
            ((f.cumlative_amounts_power : ℚ) * unit)) with
        | .ok () => .val (.ok ())
        | .error () => .val (.error .database)
    | _ => .val (.ok ())

/-- `commit_to_database`: the whole property loop; a `?` error aborts the
remaining entries. -/
def commitToDatabase (sink : Sink) (todayDay : Int) (unit : ℚ) :
    List EchonetliteEdata → RustOutcome (Except DaqDaemonError Unit)
  | [] => .val (.ok ())
  | e :: rest =>
    match commitEdata sink todayDay unit e with
    | .panic => .panic
    | .val (.error err) => .val (.error err)
    | .val (.ok ()) => commitToDatabase sink todayDay unit rest

/-- An IPv6 address as its eight 16-bit groups. -/
structure Ipv6Address : Type where
  groups : List Nat
  deriving Repr, DecidableEq

/-- `skstack::Erxudp` (`src/skstack/skrxd.rs`). -/
structure Erxudp : Type where
  sender : Ipv6Address
  destination : Ipv6Address
  sender_port : Nat
  destination_port : Nat
  senderlla : Nat
  secured : Nat
  datalen : Nat
  data : List Nat
  deriving Repr, DecidableEq

/-- `rx_erxudp` (`src/bin/uchino_daqd.rs`): dispatch on the destination UDP
port; an undecodable ECHONET Lite payload is logged and discarded; PANA
(port 0x02CC) and unknown ports are ignored. -/
def rxErxudp (sink : Sink) (todayDay : Int) (unit : ℚ) (er : Erxudp) :
    RustOutcome (Except DaqDaemonError Unit) :=
  if er.destination_port = 0x0e1a then
    match EchonetliteFrame.decode er.data with
    | some (frame, _) => commitToDatabase sink todayDay unit frame.edata
    | none => .val (.ok ())
  else if er.destination_port = 0x02cc then .val (.ok ())
  else .val (.ok ())

/-- `skstack::Event` (`src/skstack/skrxd.rs`). -/
structure SkEvent : Type where
  code : Nat
  sender : Ipv6Address
  param : Option Nat
  deriving Repr, DecidableEq

/-- `skstack::Epandesc` (`src/skstack/skrxd.rs`). -/
structure Epandesc : Type where
  channel : Nat
  channel_page : Nat
  pan_id : Nat
  addr : Nat
  lqi : Nat
  pair_id : Nat
  deriving Repr, DecidableEq

/-- `skstack::SkRxD` (`src/skstack/skrxd.rs`). -/
inductive SkRxD : Type
  | event (e : SkEvent)
  | epandesc (e : Epandesc)
  | erxudp (e : Erxudp)
  | fail (code : Nat)
  | ok
  | void
  deriving Repr, DecidableEq

/-- What one `skstack::receive` call hands the receiver: a record, or an
I/O error that either is or is not a read timeout. -/
inductive RxInput : Type
  | rxd (r : SkRxD)
  | ioError (timedOut : Bool)

/-- Result of one iteration of the `smartmeter_receiver` loop. -/
inductive ReceiverStep : Type
  | proceed
  | halt (e : DaqDaemonError)
  | panicked
  deriving Repr, DecidableEq

/-- One iteration of `smartmeter_receiver` (`src/bin/uchino_daqd.rs`):
`Fail` halts with `CommandFail`; events 0x24/0x27/0x28/0x29 halt with
`PanaSessionDisconnected`; every other event, `Void`, `Ok` and `Epandesc`
only trace; `Erxudp` runs `rx_erxudp` and halts on its error; a read
timeout is swallowed, any other I/O error halts. -/
def smartmeterReceiverStep (sink : Sink) (todayDay : Int) (unit : ℚ)
    (input : RxInput) : ReceiverStep :=
  match input with
  | .rxd .void => .proceed
  | .rxd .ok => .proceed
  | .rxd (.fail code) => .halt (.commandFail code)
  | .rxd (.event ev) =>
      if ev.code = 0x24 ∨ ev.code = 0x27 ∨ ev.code = 0x28 ∨ ev.code = 0x29 then
        .halt .panaSessionDisconnected
      else .proceed
  | .rxd (.epandesc _) => .proceed
  | .rxd (.erxudp er) =>
      match rxErxudp sink todayDay unit er with
      | .panic => .panicked
      | .val (.ok ()) => .proceed
      | .val (.error e) => .halt e
  | .ioError true => .proceed
  | .ioError false => .halt .io

/-- The supervisor's decision after one acquisition cycle ends. -/
inductive SupervisorAction : Type
  | restartAfterCooldown (seconds : Nat)
  | abortDaemon
  deriving Repr, DecidableEq

/-- The restart loop of `main` (`src/bin/uchino_daqd.rs`): a clean return
and `PanaSessionDisconnected` sleep the 5-second cool-down and restart the
whole acquisition (`continue`); every other error breaks the loop and the
daemon exits with a failure code. -/
def superviseOutcome : Option DaqDaemonError → SupervisorAction
  | none => .restartAfterCooldown 5
  | some .io => .abortDaemon
  | some .binaryEncode => .abortDaemon
  | some .cron => .abortDaemon
  | some .outOfRange => .abortDaemon
  | some .serialPort => .abortDaemon
  | some .database => .abortDaemon
  | some .invalidId => .abortDaemon
  | some .invalidPassword => .abortDaemon
  | some .invalidMacAddress => .abortDaemon
  | some (.commandFail _) => .abortDaemon
  | some .panaSessionDisconnected => .restartAfterCooldown 5
  | some .other => .abortDaemon

/-- A sink whose every write fails with a database error. -/
def failingSink : Sink := fun _ => .error ()

/-- An ERXUDP record carrying an instantaneous-power Get-response
(ESV 0x72, one 0xE7 property of 500 W) to the ECHONET Lite port. -/
def exampleInstantErxudp : Erxudp :=
  ⟨⟨[0xfe80, 0, 0, 0, 0, 0, 0, 1]⟩, ⟨[0xfe80, 0, 0, 0, 0, 0, 0, 2]⟩,
    0x0e1a, 0x0e1a, 0x1234, 0, 18,
    [0x10, 0x81, 0x00, 0x01, 0x02, 0x88, 0x01, 0x05, 0xff, 0x01, 0x72, 0x01,
      0xe7, 0x04, 0x00, 0x00, 0x01, 0xf4]⟩

/-- An ERXUDP record to the ECHONET Lite port whose payload is empty and
therefore fails frame decoding. -/
def emptyErxudp : Erxudp :=
  ⟨⟨[0xfe80, 0, 0, 0, 0, 0, 0, 1]⟩, ⟨[0xfe80, 0, 0, 0, 0, 0, 0, 2]⟩,
    0x0e1a, 0x0e1a, 0x1234, 0, 0, []⟩

/-- C4 counterexample.  A persistence-sink failure is *not* contained: it
halts the receiver with a Database error (not `.proceed`), and the
supervisor aborts the daemon on Database, CommandFail and I/O errors
instead of cool-down-restarting (only `PanaSessionDisconnected` and a clean
return restart). -/
theorem receiver_policy_counterexample :
    smartmeterReceiverStep failingSink 20000 1 (.rxd (.erxudp exampleInstantErxudp))
      = .halt .database
  ∧ superviseOutcome (some .database) = .abortDaemon
  ∧ superviseOutcome (some (.commandFail 0x10)) = .abortDaemon
  ∧ superviseOutcome (some .io) = .abortDaemon :=
  ⟨rfl, rfl, rfl, rfl⟩

/-- C4 (amended).  Inside the receiver, frame-decode (BinaryDecode) and
UnknownProperty errors are contained — logged and discarded, the loop
proceeding — while persistence-sink errors halt the receiver with a
Database error; CommandFail and SessionDisconnected also terminate the
acquisition cycle; read timeouts are swallowed, other I/O errors halt the
cycle; and the supervisor sleeps the 5-second cool-down and restarts the
whole acquisition only on SessionDisconnected or a clean return, aborting
the daemon on every other error (Database, CommandFail, I/O included). -/
theorem receiver_error_policy :
    (∀ (sink : Sink) (todayDay : Int) (unit : ℚ) (er : Erxudp),
      er.destination_port = 0x0e1a → EchonetliteFrame.decode er.data = none →
      smartmeterReceiverStep sink todayDay unit (.rxd (.erxudp er)) = .proceed)
  ∧ (∀ (sink : Sink) (todayDay : Int) (unit : ℚ) (e : EchonetliteEdata)
      (rest : List EchonetliteEdata) (pe : PropErr),
      SMProperties.tryFrom e = .val (.error pe) →
      commitToDatabase sink todayDay unit (e :: rest)
        = commitToDatabase sink todayDay unit rest)
  ∧ (∀ (sink : Sink) (todayDay : Int) (unit : ℚ) (er : Erxudp)
      (err : DaqDaemonError),
      rxErxudp sink todayDay unit er = .val (.error err) →
      smartmeterReceiverStep sink todayDay unit (.rxd (.erxudp er)) = .halt err)
  ∧ (∀ (sink : Sink) (todayDay : Int) (unit : ℚ) (code : Nat),
      smartmeterReceiverStep sink todayDay unit (.rxd (.fail code))
        = .halt (.commandFail code))
  ∧ (∀ (sink : Sink) (todayDay : Int) (unit : ℚ) (ev : SkEvent),
      ev.code ∈ ([0x24, 0x27, 0x28, 0x29] : List Nat) →
      smartmeterReceiverStep sink todayDay unit (.rxd (.event ev))
        = .halt .panaSessionDisconnected)
  ∧ (∀ (sink : Sink) (todayDay : Int) (unit : ℚ) (ev : SkEvent),
      ev.code ∉ ([0x24, 0x27, 0x28, 0x29] : List Nat) →
      smartmeterReceiverStep sink todayDay unit (.rxd (.event ev)) = .proceed)
  ∧ (∀ (sink : Sink) (todayDay : Int) (unit : ℚ),
      smartmeterReceiverStep sink todayDay unit (.ioError true) = .proceed
      ∧ smartmeterReceiverStep sink todayDay unit (.ioError false) = .halt .io)
  ∧ superviseOutcome none = .restartAfterCooldown 5
  ∧ superviseOutcome (some .panaSessionDisconnected) = .restartAfterCooldown 5
  ∧ (∀ e : DaqDaemonError, e ≠ .panaSessionDisconnected →
      superviseOutcome (some e) = .abortDaemon) := by
  refine ⟨?_, ?_, ?_, ?_, ?_, ?_, ?_, rfl, rfl, ?_⟩
  · intro sink todayDay unit er hport hdec
    simp [smartmeterReceiverStep, rxErxudp, hport, hdec]
  · intro sink todayDay unit e rest pe h
    simp [commitToDatabase, commitEdata, h]
  · intro sink todayDay unit er err h
    simp [smartmeterReceiverStep, h]
  · intro sink todayDay unit code
    rfl
  · intro sink todayDay unit ev hm
    simp only [List.mem_cons, List.not_mem_nil, or_false] at hm
    rcases hm with h | h | h | h <;> simp [smartmeterReceiverStep, h]
  · intro sink todayDay unit ev hm
    simp only [List.mem_cons, List.not_mem_nil, or_false, not_or] at hm
    obtain ⟨h1, h2, h3, h4⟩ := hm
    simp [smartmeterReceiverStep, h1, h2, h3, h4]
  · intro sink todayDay unit
    exact ⟨rfl, rfl⟩
  · intro e he
    cases e <;> first | rfl | exact absurd rfl he

/-- Witness for `receiver_error_policy`: its decode-failure containment
conjunct at a concrete empty ERXUDP payload, hypotheses discharged by
computation. -/
theorem receiver_error_policy_witness :
    smartmeterReceiverStep failingSink 0 1 (.rxd (.erxudp emptyErxudp)) = .proceed :=
  receiver_error_policy.1 failingSink 0 1 emptyErxudp rfl rfl

/-! ## The SKSTACK line parser

From `src/skstack/parser.rs`.  The nom combinators it uses are modelled over
`List Char` with their nom-7 semantics, distinguishing the *complete*
variants (which turn end-of-input into a recoverable error) from the
*streaming* `bytes::streaming::tag` used between the EPANDESC lines (which
reports how many more bytes are needed).  The recursive combinators
(`many0`, `separated_list1`) carry explicit fuel, initialised from the input
length exactly as the consumption-progress guard of nom bounds them. -/

/-- Result of running a nom parser: remaining input and value, a recoverable
error (`nom::Err::Error`; no parser here uses `Failure`), or
`nom::Err::Incomplete(Needed::new n)`. -/
inductive PResult (α : Type) : Type
  | ok (rest : List Char) (a : α)
  | err
  | incomplete (needed : Nat)
  deriving Repr, DecidableEq

/-- A nom parser over text input. -/
def NomP (α : Type) : Type := List Char → PResult α

/-- `nom::bytes::complete::tag`: end of input is a plain error. -/
def tagC (t : List Char) : NomP (List Char) := fun s =>
  if t.isPrefixOf s then .ok (s.drop t.length) t else .err

/-- `nom::bytes::streaming::tag`: a proper prefix of the tag at end of input
asks for the missing bytes. -/
def tagS (t : List Char) : NomP (List Char) := fun s =>
  if t.isPrefixOf s then .ok (s.drop t.length) t
  else if s.length < t.length ∧ s.isPrefixOf t then .incomplete (t.length - s.length)
  else .err

/-- `nom::character::complete::crlf`. -/
def crlf : NomP Unit := fun s =>
  match tagC ("\r\n".toList) s with
  | .ok rest _ => .ok rest ()
  | .err => .err
  | .incomplete n => .incomplete n

/-- The space/tab class of `space0`/`space1`. -/
def isSpaceTab (c : Char) : Bool := decide (c.toNat = 32 ∨ c.toNat = 9)

/-- The ASCII hex-digit class of `hex_digit1`/`is_ascii_hexdigit`. -/
def isHexDigitChar (c : Char) : Bool :=
  decide ((48 ≤ c.toNat ∧ c.toNat ≤ 57) ∨ (65 ≤ c.toNat ∧ c.toNat ≤ 70)
    ∨ (97 ≤ c.toNat ∧ c.toNat ≤ 102))

/-- `nom::character::complete::space0`. -/
def space0 : NomP (List Char) := fun s =>
  .ok (s.dropWhile isSpaceTab) (s.takeWhile isSpaceTab)

/-- `nom::character::complete::space1`. -/
def space1 : NomP (List Char) := fun s =>
  let run := s.takeWhile isSpaceTab
  if run.isEmpty then .err else .ok (s.dropWhile isSpaceTab) run

/-- `nom::character::complete::hex_digit1`. -/
def hexDigit1 : NomP (List Char) := fun s =>
  let run := s.takeWhile isHexDigitChar
  if run.isEmpty then .err else .ok (s.dropWhile isHexDigitChar) run

/-- `take_while_m_n(2, 2, is_ascii_hexdigit)` (complete). -/
def takeHex2 : NomP (List Char) := fun s =>
  match s with
  | c0 :: c1 :: rest =>
      if isHexDigitChar c0 ∧ isHexDigitChar c1 then .ok rest [c0, c1] else .err
  | _ => .err

/-- `nom::combinator::map`. -/
def pmap (p : NomP α) (f : α → β) : NomP β := fun s =>
  match p s with
  | .ok rest a => .ok rest (f a)
  | .err => .err
  | .incomplete n => .incomplete n

/-- `nom::combinator::map_res` (the fallible function modelled by `Option`). -/
def pmapRes (p : NomP α) (f : α → Option β) : NomP β := fun s =>
  match p s with
  | .ok rest a =>
      match f a with
      | some b => .ok rest b
      | none => .err
  | .err => .err
  | .incomplete n => .incomplete n

/-- Sequencing as the `?`-style chaining of sub-parsers in the source. -/
def pbind (p : NomP α) (f : α → NomP β) : NomP β := fun s =>
  match p s with
  | .ok rest a => f a rest
  | .err => .err
  | .incomplete n => .incomplete n

/-- `nom::combinator::opt` (propagates `Incomplete`). -/
def popt (p : NomP α) : NomP (Option α) := fun s =>
  match p s with
  | .ok rest a => .ok rest (some a)
  | .err => .ok s none
  | .incomplete n => .incomplete n

/-- `nom::branch::alt`: first success wins, a recoverable error tries the
next branch, `Incomplete` is returned at once. -/
def palt : List (NomP α) → NomP α
  | [] => fun _ => .err
  | p :: ps => fun s =>
      match p s with
      | .ok rest a => .ok rest a
      | .incomplete n => .incomplete n
      | .err => palt ps s

/-- `nom::multi::many0` body; the fuel dominates the consumption-progress
guard (nom errors when an iteration consumes nothing). -/
def many0Go (p : NomP α) : Nat → NomP (List α)
  | 0 => fun _ => .err
  | fuel + 1 => fun s =>
      match p s with
      | .err => .ok s []
      | .incomplete n => .incomplete n
      | .ok rest a =>
          if rest.length < s.length then
            match many0Go p fuel rest with
            | .ok rest2 as => .ok rest2 (a :: as)
            | .err => .err
            | .incomplete n => .incomplete n
          else .err

/-- `nom::multi::many0`. -/
def many0 (p : NomP α) : NomP (List α) := fun s => many0Go p (s.length + 1) s

/-- `nom::multi::separated_list1` body: try the separator then the element;
an error in either ends the list (backtracking to before the separator). -/
def sepGo (sep : NomP β) (p : NomP α) : Nat → NomP (List α)
  | 0 => fun _ => .err
  | fuel + 1 => fun s =>
      match sep s with
      | .err => .ok s []
      | .incomplete n => .incomplete n
      | .ok rest1 _ =>
          match p rest1 with
          | .err => .ok s []
          | .incomplete n => .incomplete n
          | .ok rest2 a =>
              if rest2.length < s.length then
                match sepGo sep p fuel rest2 with
                | .ok rest3 as => .ok rest3 (a :: as)
                | .err => .err
                | .incomplete n => .incomplete n
              else .err

/-- `nom::multi::separated_list1`. -/
def sepList1 (sep : NomP β) (p : NomP α) : NomP (List α) := fun s =>
  match p s with
  | .err => .err
  | .incomplete n => .incomplete n
  | .ok rest a =>
      match sepGo sep p (rest.length + 1) rest with
      | .ok rest2 as => .ok rest2 (a :: as)
      | .err => .err
      | .incomplete n => .incomplete n

/-- Numeric value of one ASCII hex digit. -/
def hexDigitVal (c : Char) : Nat :=
  if 48 ≤ c.toNat ∧ c.toNat ≤ 57 then c.toNat - 48
  else if 65 ≤ c.toNat ∧ c.toNat ≤ 70 then c.toNat - 55
  else if 97 ≤ c.toNat ∧ c.toNat ≤ 102 then c.toNat - 87
  else 0

/-- `u{8,16,64}::from_str_radix(s, 16)`: the value of the digit string
(checked arithmetic fails exactly when the value exceeds the type). -/
def hexVal (ds : List Char) : Nat := ds.foldl (fun acc c => 16 * acc + hexDigitVal c) 0

/-- `u8_hex_digit` (`src/skstack/parser.rs`). -/
def u8_hex_digit : NomP Nat :=
  pmapRes hexDigit1 fun ds => if hexVal ds < 256 then some (hexVal ds) else none

/-- `u8_hex_digit2` (`src/skstack/parser.rs`). -/
def u8_hex_digit2 : NomP Nat :=
  pmapRes takeHex2 fun ds => if hexVal ds < 256 then some (hexVal ds) else none

/-- `u16_hex_digit` (`src/skstack/parser.rs`). -/
def u16_hex_digit : NomP Nat :=
  pmapRes hexDigit1 fun ds => if hexVal ds < 65536 then some (hexVal ds) else none

/-- `u64_hex_digit` (`src/skstack/parser.rs`). -/
def u64_hex_digit : NomP Nat :=
  pmapRes hexDigit1 fun ds => if hexVal ds < 2 ^ 64 then some (hexVal ds) else none

/-- `xs.join(":").parse::<Ipv6Addr>()` on colon-separated nonempty hex-digit
groups: the std parser accepts exactly eight groups of at most four digits
(no compression can arise from such input). -/
def ipv6FromGroups (xs : List (List Char)) : Option Ipv6Address :=
  if xs.length = 8 ∧ ∀ g ∈ xs, g.length ≤ 4 then some ⟨xs.map hexVal⟩ else none

/-- `ipv6addr` (`src/skstack/parser.rs`). -/
def ipv6addr : NomP Ipv6Address :=
  pmapRes (sepList1 (tagC (":".toList)) hexDigit1) ipv6FromGroups

/-- `rx_ok`: `OK\r\n`. -/
def rx_ok : NomP SkRxD :=
  pbind (tagC ("OK".toList)) fun _ =>
  pmap crlf fun _ => SkRxD.ok

/-- `rx_fail`: `FAIL ERxx\r\n`. -/
def rx_fail : NomP SkRxD :=
  pbind (tagC ("FAIL ER".toList)) fun _ =>
  pbind u8_hex_digit2 fun code =>
  pmap crlf fun _ => SkRxD.fail code

/-- `rx_event`: `EVENT xx <ipv6> [yy]\r\n`. -/
def rx_event : NomP SkRxD :=
  pbind (tagC ("EVENT".toList)) fun _ =>
  pbind space1 fun _ =>
  pbind u8_hex_digit fun code =>
  pbind space1 fun _ =>
  pbind ipv6addr fun sender =>
  pbind space0 fun _ =>
  pbind (popt u8_hex_digit) fun param =>
  pmap crlf fun _ => SkRxD.event ⟨code, sender, param⟩

/-- `rx_erxudp`: the nine space-separated fields then the hex-pair data run;
the length field and the data run are parsed independently and never
cross-checked. -/
def rx_erxudp : NomP SkRxD :=
  pbind (tagC ("ERXUDP".toList)) fun _ =>
  pbind space1 fun _ =>
  pbind ipv6addr fun sender =>
  pbind space1 fun _ =>
  pbind ipv6addr fun destination =>
  pbind space1 fun _ =>
  pbind u16_hex_digit fun sender_port =>
  pbind space1 fun _ =>
  pbind u16_hex_digit fun destination_port =>
  pbind space1 fun _ =>
  pbind u64_hex_digit fun senderlla =>
  pbind space1 fun _ =>
  pbind u8_hex_digit fun secured =>
  pbind space1 fun _ =>
  pbind u16_hex_digit fun datalen =>
  pbind space1 fun _ =>
  pbind (many0 u8_hex_digit2) fun data =>
  pmap crlf fun _ =>
    SkRxD.erxudp ⟨sender, destination, sender_port, destination_port,
      senderlla, secured, datalen, data⟩

/-- `rx_epandesc`: the `EPANDESC` line and six indented field lines; the
two-space indents use the *streaming* tag. -/
def rx_epandesc : NomP SkRxD :=
  pbind (tagC ("EPANDESC".toList)) fun _ =>
  pbind crlf fun _ =>
  pbind (tagS ("  ".toList)) fun _ =>
  pbind (tagC ("Channel:".toList)) fun _ =>
  pbind u64_hex_digit fun channel =>
  pbind crlf fun _ =>
  pbind (tagS ("  ".toList)) fun _ =>
  pbind (tagC ("Channel Page:".toList)) fun _ =>
  pbind u64_hex_digit fun channel_page =>
  pbind crlf fun _ =>
  pbind (tagS ("  ".toList)) fun _ =>
  pbind (tagC ("Pan ID:".toList)) fun _ =>
  pbind u64_hex_digit fun pan_id =>
  pbind crlf fun _ =>
  pbind (tagS ("  ".toList)) fun _ =>
  pbind (tagC ("Addr:".toList)) fun _ =>
  pbind u64_hex_digit fun addr =>
  pbind crlf fun _ =>
  pbind (tagS ("  ".toList)) fun _ =>
  pbind (tagC ("LQI:".toList)) fun _ =>
  pbind u64_hex_digit fun lqi =>
  pbind crlf fun _ =>
  pbind (tagS ("  ".toList)) fun _ =>
  pbind (tagC ("PairID:".toList)) fun _ =>
  pbind u64_hex_digit fun pair_id =>
  pmap crlf fun _ =>
    SkRxD.epandesc ⟨channel % 256, channel_page % 256, pan_id % 65536,
      addr, lqi % 256, pair_id % 2 ^ 32⟩

/-- `parse_rxd`: the `alt` over the six productions, in source order. -/
def parse_rxd : NomP SkRxD :=
  palt [
    pmap (pbind space0 fun _ => crlf) fun _ => SkRxD.void,
    rx_ok,
    rx_fail,
    rx_event,
    rx_epandesc,
    rx_erxudp]

/-! ## Grammar serialisation (spec §4.1)

The canonical textual form of each record, written exactly as the grammar
(and the transceiver) produces it: fixed-width uppercase hex fields,
eight 4-digit groups for IPv6 addresses, CRLF line ends. -/

/-- The uppercase hex digit of a value below 16. -/
def hexDigitChar : Nat → Char
  | 0 => '0'
  | 1 => '1'
  | 2 => '2'
  | 3 => '3'
  | 4 => '4'
  | 5 => '5'
  | 6 => '6'
  | 7 => '7'
  | 8 => '8'
  | 9 => '9'
  | 10 => 'A'
  | 11 => 'B'
  | 12 => 'C'
  | 13 => 'D'
  | 14 => 'E'
  | 15 => 'F'
  | _ => '0'

/-- Fixed-width big-endian hex rendering. -/
def toHex : Nat → Nat → List Char
  | 0, _ => []
  | w + 1, n => toHex w (n / 16) ++ [hexDigitChar (n % 16)]

/-- The full eight-group colon-separated IPv6 form. -/
def serializeIpv6 (ip : Ipv6Address) : List Char :=
  List.intercalate (":".toList) (ip.groups.map (toHex 4))

/-- Canonical serialisation of a §4.1 record. -/
def serializeRxD : SkRxD → List Char
  | .void => "\r\n".toList
  | .ok => "OK\r\n".toList
  | .fail code => "FAIL ER".toList ++ toHex 2 code ++ "\r\n".toList
  | .event ev =>
      "EVENT ".toList ++ toHex 2 ev.code ++ " ".toList
        ++ serializeIpv6 ev.sender
        ++ (match ev.param with
            | none => []
            | some p => " ".toList ++ toHex 2 p)
        ++ "\r\n".toList
  | .erxudp er =>
      "ERXUDP ".toList ++ serializeIpv6 er.sender ++ " ".toList
        ++ serializeIpv6 er.destination ++ " ".toList
        ++ toHex 4 er.sender_port ++ " ".toList
        ++ toHex 4 er.destination_port ++ " ".toList
        ++ toHex 16 er.senderlla ++ " ".toList
        ++ toHex 2 er.secured ++ " ".toList
        ++ toHex 4 er.datalen ++ " ".toList
        ++ (er.data.map (toHex 2)).flatten
        ++ "\r\n".toList
  | .epandesc ep =>
      "EPANDESC\r\n".toList
        ++ "  Channel:".toList ++ toHex 2 ep.channel ++ "\r\n".toList
        ++ "  Channel Page:".toList ++ toHex 2 ep.channel_page ++ "\r\n".toList
        ++ "  Pan ID:".toList ++ toHex 4 ep.pan_id ++ "\r\n".toList
        ++ "  Addr:".toList ++ toHex 16 ep.addr ++ "\r\n".toList
        ++ "  LQI:".toList ++ toHex 2 ep.lqi ++ "\r\n".toList
        ++ "  PairID:".toList ++ toHex 8 ep.pair_id ++ "\r\n".toList

/-- Field bounds of an eight-group IPv6 address. -/
def WfIpv6 (ip : Ipv6Address) : Prop :=
  ip.groups.length = 8 ∧ ∀ g ∈ ip.groups, g < 65536

/-- Field bounds under which a record is expressible in the §4.1 grammar. -/
def WfSkRxD : SkRxD → Prop
  | .void => True
  | .ok => True
  | .fail code => code < 256
  | .event ev => ev.code < 256 ∧ WfIpv6 ev.sender ∧
      ∀ p, ev.param = some p → p < 256
  | .erxudp er => WfIpv6 er.sender ∧ WfIpv6 er.destination ∧
      er.sender_port < 65536 ∧ er.destination_port < 65536 ∧
      er.senderlla < 2 ^ 64 ∧ er.secured < 256 ∧ er.datalen < 65536 ∧
      ByteList er.data
  | .epandesc ep => ep.channel < 256 ∧ ep.channel_page < 256 ∧
      ep.pan_id < 65536 ∧ ep.addr < 2 ^ 64 ∧ ep.lqi < 256 ∧
      ep.pair_id < 2 ^ 32

/-- C10.  The ERXUDP line parser does not cross-check the length field
against the data section: this concrete line announces `datalen = 2` but
carries three hex byte pairs, and parsing succeeds, storing the parsed
length field and the independently parsed three data bytes. -/
theorem erxudp_no_length_check :
    parse_rxd (("ERXUDP FE80:0000:0000:0000:0000:0000:0000:0001 "
        ++ "FF02:0000:0000:0000:0000:0000:0000:0001 "
        ++ "0E1A 0E1A 001D129012345678 0 0002 AABBCC\r\n").toList)
      = .ok [] (SkRxD.erxudp ⟨⟨[0xfe80, 0, 0, 0, 0, 0, 0, 1]⟩,
          ⟨[0xff02, 0, 0, 0, 0, 0, 0, 1]⟩, 0x0e1a, 0x0e1a,
          0x001D129012345678, 0, 2, [0xAA, 0xBB, 0xCC]⟩)
    ∧ ([0xAA, 0xBB, 0xCC] : List Nat).length ≠ 2 := by
  exact ⟨by decide, by decide⟩

/-- C5 counterexample.  `OK` is a strict prefix of the serialisation
`OK\r\n` of the record `Ok`, yet the parser returns a recoverable *error*
on it, not *incomplete* (the complete-variant combinators turn end of input
into an error for every single-line production). -/
theorem parser_prefix_counterexample :
    ("OK".toList).isPrefixOf (serializeRxD SkRxD.ok) = true
  ∧ "OK".toList ≠ serializeRxD SkRxD.ok
  ∧ parse_rxd ("OK".toList) = .err := by
  exact ⟨by decide, by decide, by decide⟩

/-! ### Round-trip infrastructure -/

/-- The first character of `r` (when any) falsifies `p`. -/
def NotHead (p : Char → Bool) (r : List Char) : Prop :=
  ∀ c, r.head? = some c → p c = false

lemma notHead_cons {p : Char → Bool} {a : Char} {t : List Char}
    (h : p a = false) : NotHead p (a :: t) := by
  intro c hc
  simp only [List.head?_cons, Option.some.injEq] at hc
  rw [← hc]
  exact h

lemma takeWhile_append_run {p : Char → Bool} {ds r : List Char}
    (hds : ∀ c ∈ ds, p c = true) (hr : NotHead p r) :
    (ds ++ r).takeWhile p = ds ∧ (ds ++ r).dropWhile p = r := by
  induction ds with
  | nil =>
    simp only [List.nil_append]
    cases r with
    | nil => simp
    | cons c t =>
      have := hr c (by simp)
      simp [List.takeWhile_cons, List.dropWhile_cons, this]
  | cons a ds ih =>
    have ha : p a = true := hds a (by simp)
    obtain ⟨h1, h2⟩ := ih (fun c hc => hds c (by simp [hc]))
    simp [List.takeWhile_cons, List.dropWhile_cons, ha, h1, h2]

lemma hexDigit1_run {ds r : List Char} (hne : ds ≠ [])
    (hds : ∀ c ∈ ds, isHexDigitChar c = true) (hr : NotHead isHexDigitChar r) :
    hexDigit1 (ds ++ r) = .ok r ds := by
  obtain ⟨h1, h2⟩ := takeWhile_append_run hds hr
  simp [hexDigit1, h1, h2, hne]

lemma hexDigit1_notHexHead {r : List Char} (hr : NotHead isHexDigitChar r) :
    hexDigit1 r = .err := by
  cases r with
  | nil => rfl
  | cons c t =>
    have := hr c (by simp)
    simp [hexDigit1, List.takeWhile_cons, this]

lemma hexDigitChar_isHex (m : Nat) : isHexDigitChar (hexDigitChar m) = true := by
  unfold hexDigitChar
  split <;> decide

lemma hexDigitVal_hexDigitChar {m : Nat} (h : m < 16) :
    hexDigitVal (hexDigitChar m) = m := by
  interval_cases m <;> decide

lemma toHex_length (w n : Nat) : (toHex w n).length = w := by
  induction w generalizing n with
  | zero => rfl
  | succ w ih => simp [toHex, ih]

lemma toHex_isHex {w n : Nat} : ∀ c ∈ toHex w n, isHexDigitChar c = true := by
  induction w generalizing n with
  | zero => simp [toHex]
  | succ w ih =>
    intro c hc
    simp only [toHex, List.mem_append, List.mem_singleton] at hc
    rcases hc with hc | hc
    · exact ih c hc
    · rw [hc]
      exact hexDigitChar_isHex _

lemma toHex_ne_nil {w n : Nat} (hw : w ≠ 0) : toHex w n ≠ [] := by
  intro h
  have := toHex_length w n
  rw [h] at this
  simp at this
  omega

lemma hexVal_append_digit (xs : List Char) (c : Char) :
    hexVal (xs ++ [c]) = 16 * hexVal xs + hexDigitVal c := by
  simp [hexVal, List.foldl_append]

lemma hexVal_toHex {w n : Nat} (h : n < 16 ^ w) : hexVal (toHex w n) = n := by
  induction w generalizing n with
  | zero =>
    simp only [pow_zero, Nat.lt_one_iff] at h
    simp [toHex, hexVal, h]
  | succ w ih =>
    have h16 : (16 : Nat) ^ (w + 1) = 16 ^ w * 16 := pow_succ 16 w
    have hdiv : n / 16 < 16 ^ w := by omega
    simp only [toHex, hexVal_append_digit, ih hdiv,
      hexDigitVal_hexDigitChar (Nat.mod_lt n (by omega))]
    omega

lemma hexNum_run {bound w n : Nat} {r : List Char} (hn : n < 16 ^ w)
    (hb : n < bound) (hw : w ≠ 0) (hr : NotHead isHexDigitChar r) :
    pmapRes hexDigit1
      (fun ds => if hexVal ds < bound then some (hexVal ds) else none)
      (toHex w n ++ r) = .ok r n := by
  rw [pmapRes, hexDigit1_run (toHex_ne_nil hw) toHex_isHex hr]
  simp [hexVal_toHex hn, hb]

lemma u8_hex_run {n : Nat} {r : List Char} (hn : n < 256)
    (hr : NotHead isHexDigitChar r) :
    u8_hex_digit (toHex 2 n ++ r) = .ok r n :=
  hexNum_run (by omega) hn (by omega) hr

lemma u16_hex_run {w n : Nat} {r : List Char} (hn : n < 16 ^ w)
    (hb : n < 65536) (hw : w ≠ 0) (hr : NotHead isHexDigitChar r) :
    u16_hex_digit (toHex w n ++ r) = .ok r n :=
  hexNum_run hn hb hw hr

lemma u64_hex_run {w n : Nat} {r : List Char} (hn : n < 16 ^ w)
    (hb : n < 2 ^ 64) (hw : w ≠ 0) (hr : NotHead isHexDigitChar r) :
    u64_hex_digit (toHex w n ++ r) = .ok r n :=
  hexNum_run hn hb hw hr

lemma toHex2_explicit (n : Nat) :
    toHex 2 n = [hexDigitChar (n / 16 % 16), hexDigitChar (n % 16)] := by
  simp [toHex]

lemma u8_hex2_run {n : Nat} {r : List Char} (hn : n < 256) :
    u8_hex_digit2 (toHex 2 n ++ r) = .ok r n := by
  rw [u8_hex_digit2, pmapRes, toHex2_explicit]
  have h0 := hexDigitChar_isHex (n / 16 % 16)
  have h1 := hexDigitChar_isHex (n % 16)
  simp only [List.cons_append, List.nil_append, takeHex2, h0, h1, and_self,
    if_pos, if_true]
  have hv : hexVal [hexDigitChar (n / 16 % 16), hexDigitChar (n % 16)] = n := by
    have e0 := hexDigitVal_hexDigitChar (m := n / 16 % 16) (by omega)
    have e1 := hexDigitVal_hexDigitChar (m := n % 16) (by omega)
    simp only [hexVal, List.foldl_cons, List.foldl_nil, e0, e1]
    omega
  rw [hv]
  simp [hn]

lemma takeHex2_notHexHead {c : Char} {t : List Char}
    (hc : isHexDigitChar c = false) : takeHex2 (c :: t) = .err := by
  cases t with
  | nil => rfl
  | cons c1 t1 => simp [takeHex2, hc]

lemma u8_hex2_notHexHead {r : List Char} (hr : NotHead isHexDigitChar r) :
    u8_hex_digit2 r = .err := by
  cases r with
  | nil => rfl
  | cons c t =>
    have := hr c (by simp)
    rw [u8_hex_digit2, pmapRes, takeHex2_notHexHead this]

lemma space1_single {r : List Char} (hr : NotHead isSpaceTab r) :
    space1 (" ".toList ++ r) = .ok r (" ".toList) := by
  show space1 (Char.ofNat 32 :: r) = .ok r [Char.ofNat 32]
  have hsp : isSpaceTab (Char.ofNat 32) = true := by decide
  cases r with
  | nil => decide
  | cons c t =>
    have hc := hr c (by simp)
    simp [space1, List.takeWhile_cons, List.dropWhile_cons, hsp, hc]

lemma space0_id {r : List Char} (hr : NotHead isSpaceTab r) :
    space0 r = .ok r [] := by
  cases r with
  | nil => rfl
  | cons c t =>
    have := hr c (by simp)
    simp [space0, List.takeWhile_cons, List.dropWhile_cons, this]

lemma space0_single {r : List Char} (hr : NotHead isSpaceTab r) :
    space0 (" ".toList ++ r) = .ok r (" ".toList) := by
  show space0 (Char.ofNat 32 :: r) = .ok r [Char.ofNat 32]
  have hsp : isSpaceTab (Char.ofNat 32) = true := by decide
  cases r with
  | nil => decide
  | cons c t =>
    have hc := hr c (by simp)
    simp [space0, List.takeWhile_cons, List.dropWhile_cons, hsp, hc]

lemma tagC_self (t s : List Char) : tagC t (t ++ s) = .ok s t := by
  simp [tagC, List.drop_left]

lemma tagS_self (t s : List Char) : tagS t (t ++ s) = .ok s t := by
  simp [tagS, List.drop_left]

lemma crlf_run (r : List Char) : crlf ("\r\n".toList ++ r) = .ok r () := by
  rw [crlf, tagC_self]

lemma crlf_end : crlf ("\r\n".toList) = .ok [] () := by decide

lemma tagC_err_head1 {a b : Char} {t s : List Char} (h : (a == b) = false) :
    tagC (a :: t) (b :: s) = .err := by
  simp [tagC, List.isPrefixOf, h]

lemma tagC_err_head2 {a1 a2 b : Char} {t s : List Char} (h : (a2 == b) = false) :
    tagC (a1 :: a2 :: t) (a1 :: b :: s) = .err := by
  simp [tagC, List.isPrefixOf, h]

lemma tagC_err_nil {a : Char} {t : List Char} : tagC (a :: t) [] = .err := by
  simp [tagC, List.isPrefixOf]

lemma crlf_err_head {c : Char} {t : List Char} (h : (Char.ofNat 13 == c) = false) :
    crlf (c :: t) = .err := by
  rw [crlf, show ("\r\n".toList : List Char) = Char.ofNat 13 :: Char.ofNat 10 :: [] from rfl,
    tagC_err_head1 h]

lemma flatten_toHex2_length (bytes : List Nat) :
    ((bytes.map (toHex 2)).flatten).length = 2 * bytes.length := by
  induction bytes with
  | nil => simp
  | cons b bs ih =>
    simp only [List.map_cons, List.flatten_cons, List.length_append, ih,
      toHex_length, List.length_cons]
    omega

lemma many0Go_hexpairs : ∀ (bytes : List Nat) (fuel : Nat) (r : List Char),
    ByteList bytes → NotHead isHexDigitChar r → bytes.length + 1 ≤ fuel →
    many0Go u8_hex_digit2 fuel ((bytes.map (toHex 2)).flatten ++ r)
      = .ok r bytes := by
  intro bytes
  induction bytes with
  | nil =>
    intro fuel r hb hr hf
    obtain ⟨f, rfl⟩ : ∃ f, fuel = f + 1 := ⟨fuel - 1, by omega⟩
    simp only [List.map_nil, List.flatten_nil, List.nil_append, many0Go]
    rw [u8_hex2_notHexHead hr]
  | cons b bs ih =>
    intro fuel r hb hr hf
    obtain ⟨f, rfl⟩ : ∃ f, fuel = f + 1 := ⟨fuel - 1, by omega⟩
    obtain ⟨hblt, hbs⟩ := byteList_cons hb
    have hlt : ((bs.map (toHex 2)).flatten ++ r).length
        < (toHex 2 b ++ ((bs.map (toHex 2)).flatten ++ r)).length := by
      simp only [List.length_append, toHex_length]
      omega
    simp only [List.map_cons, List.flatten_cons, List.append_assoc, many0Go,
      u8_hex2_run hblt]
    rw [if_pos hlt, ih f r hbs hr (by simp only [List.length_cons] at hf; omega)]

lemma many0_hexpairs {bytes : List Nat} {r : List Char}
    (hb : ByteList bytes) (hr : NotHead isHexDigitChar r) :
    many0 u8_hex_digit2 ((bytes.map (toHex 2)).flatten ++ r) = .ok r bytes := by
  show many0Go u8_hex_digit2
      (((bytes.map (toHex 2)).flatten ++ r).length + 1) _ = _
  apply many0Go_hexpairs _ _ _ hb hr
  rw [List.length_append, flatten_toHex2_length]
  omega

/-- The colon-prefixed tail groups of a serialised IPv6 address. -/
def ipv6Tail (gs : List Nat) : List Char :=
  (gs.map fun g => ':' :: toHex 4 g).flatten

lemma notHead_ipv6Tail (gs : List Nat) (r : List Char)
    (hr : NotHead isHexDigitChar r) :
    NotHead isHexDigitChar (ipv6Tail gs ++ r) := by
  cases gs with
  | nil => simpa [ipv6Tail] using hr
  | cons g gs =>
    simp only [ipv6Tail, List.map_cons, List.flatten_cons, List.cons_append,
      List.append_assoc]
    exact notHead_cons (by decide)

lemma tagC_colon_err {r : List Char} (hr : NotHead (fun c => ':' == c) r) :
    tagC (":".toList) r = .err := by
  cases r with
  | nil => decide
  | cons c t =>
    have := hr c (by simp)
    exact tagC_err_head1 this

lemma ipv6Tail_length (gs : List Nat) : (ipv6Tail gs).length = 5 * gs.length := by
  induction gs with
  | nil => simp [ipv6Tail]
  | cons g gs ih =>
    simp only [ipv6Tail, List.map_cons, List.flatten_cons, List.length_append,
      List.length_cons, toHex_length] at ih ⊢
    omega

lemma sepGo_groups : ∀ (gs : List Nat) (fuel : Nat) (r : List Char),
    (∀ g ∈ gs, g < 65536) → NotHead isHexDigitChar r →
    NotHead (fun c => ':' == c) r → gs.length + 1 ≤ fuel →
    sepGo (tagC (":".toList)) hexDigit1 fuel (ipv6Tail gs ++ r)
      = .ok r (gs.map (toHex 4)) := by
  intro gs
  induction gs with
  | nil =>
    intro fuel r hg hr hc hf
    obtain ⟨f, rfl⟩ : ∃ f, fuel = f + 1 := ⟨fuel - 1, by omega⟩
    simp only [ipv6Tail, List.map_nil, List.flatten_nil, List.nil_append, sepGo]
    rw [tagC_colon_err hc]
  | cons g gs ih =>
    intro fuel r hg hr hc hf
    obtain ⟨f, rfl⟩ : ∃ f, fuel = f + 1 := ⟨fuel - 1, by omega⟩
    have hshape : ipv6Tail (g :: gs) ++ r
        = ':' :: (toHex 4 g ++ (ipv6Tail gs ++ r)) := by
      simp [ipv6Tail, List.flatten_cons]
    have hsep : tagC (":".toList) (':' :: (toHex 4 g ++ (ipv6Tail gs ++ r)))
        = .ok (toHex 4 g ++ (ipv6Tail gs ++ r)) (":".toList) :=
      tagC_self (":".toList) _
    have htail : NotHead isHexDigitChar (ipv6Tail gs ++ r) :=
      notHead_ipv6Tail _ _ hr
    have hlt : (ipv6Tail gs ++ r).length
        < (':' :: (toHex 4 g ++ (ipv6Tail gs ++ r))).length := by
      simp only [List.length_cons, List.length_append, toHex_length]
      omega
    have hrun := @hexDigit1_run (toHex 4 g) (ipv6Tail gs ++ r)
      (toHex_ne_nil (by omega)) toHex_isHex htail
    have hf' : gs.length + 1 ≤ f := by
      simp only [List.length_cons] at hf
      omega
    rw [hshape]
    simp only [sepGo, hsep, hrun]
    rw [if_pos hlt, ih f r (fun x hx => hg x (by simp [hx])) hr hc hf']
    simp

lemma intercalate_colon_shape : ∀ (x : List Char) (xs : List (List Char)),
    List.intercalate (":".toList) (x :: xs)
      = x ++ (xs.map fun y => ':' :: y).flatten := by
  intro x xs
  induction xs generalizing x with
  | nil => simp [List.intercalate]
  | cons y ys ih =>
    simp only [List.intercalate, List.intersperse] at ih ⊢
    simp only [List.flatten_cons] at ih ⊢
    rw [ih y]
    simp [List.flatten_cons, List.append_assoc]

lemma ipv6addr_run {gs : List Nat} {r : List Char} (hlen : gs.length = 8)
    (hg : ∀ g ∈ gs, g < 65536) (hr : NotHead isHexDigitChar r)
    (hc : NotHead (fun c => ':' == c) r) :
    ipv6addr (serializeIpv6 ⟨gs⟩ ++ r) = .ok r ⟨gs⟩ := by
  cases gs with
  | nil => simp at hlen
  | cons g1 rest =>
    have hshape : serializeIpv6 ⟨g1 :: rest⟩ ++ r
        = toHex 4 g1 ++ (ipv6Tail rest ++ r) := by
      simp only [serializeIpv6, List.map_cons, intercalate_colon_shape,
        ipv6Tail, List.map_map, List.append_assoc]
      rfl
    have htail := notHead_ipv6Tail rest r hr
    have hbound : rest.length + 1 ≤ (ipv6Tail rest ++ r).length + 1 := by
      rw [List.length_append, ipv6Tail_length]
      omega
    have hrun := @hexDigit1_run (toHex 4 g1) (ipv6Tail rest ++ r)
      (toHex_ne_nil (by omega)) toHex_isHex htail
    have hgo := sepGo_groups rest ((ipv6Tail rest ++ r).length + 1) r
      (fun x hx => hg x (by simp [hx])) hr hc hbound
    have hcond : ((toHex 4 g1 :: rest.map (toHex 4)).length = 8
        ∧ ∀ g ∈ toHex 4 g1 :: rest.map (toHex 4), g.length ≤ 4) := by
      constructor
      · simp only [List.length_cons, List.length_map]
        simp only [List.length_cons] at hlen
        omega
      · intro g hgmem
        rcases List.mem_cons.mp hgmem with h | h
        · rw [h, toHex_length]
        · obtain ⟨a, _, ha⟩ := List.mem_map.mp h
          rw [← ha, toHex_length]
    rw [hshape]
    simp only [ipv6addr, pmapRes, sepList1, hrun, hgo, ipv6FromGroups]
    rw [if_pos hcond]
    have hp : (16 : Nat) ^ 4 = 65536 := by norm_num
    have hval : (toHex 4 g1 :: rest.map (toHex 4)).map hexVal = g1 :: rest := by
      simp only [List.map_cons, List.map_map]
      rw [hexVal_toHex (show g1 < 16 ^ 4 by
        have := hg g1 (by simp)
        omega)]
      have hrest : ∀ a ∈ rest, (hexVal ∘ toHex 4) a = id a := by
        intro a ha
        have := hg a (by simp [ha])
        simp only [Function.comp_apply, id_eq]
        exact hexVal_toHex (by omega)
      rw [List.map_congr_left hrest, List.map_id]
    rw [hval]

lemma hex_not_space {c : Char} (h : isHexDigitChar c = true) :
    isSpaceTab c = false := by
  simp only [isHexDigitChar, decide_eq_true_eq] at h
  simp only [isSpaceTab, decide_eq_false_iff_not]
  omega

lemma hex_not_colon {c : Char} (h : isHexDigitChar c = true) :
    (':' == c) = false := by
  rw [beq_eq_false_iff_ne]
  intro he
  rw [← he] at h
  exact absurd h (by decide)

lemma notHead_of_hexAll {p : Char → Bool} {l r : List Char} (hl : l ≠ [])
    (hall : ∀ c ∈ l, isHexDigitChar c = true)
    (himp : ∀ c, isHexDigitChar c = true → p c = false) :
    NotHead p (l ++ r) := by
  cases l with
  | nil => exact absurd rfl hl
  | cons a t => exact notHead_cons (himp a (hall a (by simp)))

lemma notHead_spaceTab_toHex {w n : Nat} (hw : w ≠ 0) (r : List Char) :
    NotHead isSpaceTab (toHex w n ++ r) :=
  notHead_of_hexAll (toHex_ne_nil hw) toHex_isHex fun _ h => hex_not_space h

lemma notHead_hex_space (r : List Char) :
    NotHead isHexDigitChar (" ".toList ++ r) :=
  notHead_cons (p := isHexDigitChar) (a := Char.ofNat 32) (t := r) (by decide)

lemma notHead_colon_space (r : List Char) :
    NotHead (fun c => ':' == c) (" ".toList ++ r) :=
  notHead_cons (p := fun c => ':' == c) (a := Char.ofNat 32) (t := r) (by decide)

lemma notHead_hex_crlf (r : List Char) :
    NotHead isHexDigitChar ("\r\n".toList ++ r) :=
  notHead_cons (p := isHexDigitChar) (a := Char.ofNat 13) (t := Char.ofNat 10 :: r)
    (by decide)

lemma notHead_colon_crlf (r : List Char) :
    NotHead (fun c => ':' == c) ("\r\n".toList ++ r) :=
  notHead_cons (p := fun c => ':' == c) (a := Char.ofNat 13) (t := Char.ofNat 10 :: r)
    (by decide)

lemma notHead_spaceTab_crlf (r : List Char) :
    NotHead isSpaceTab ("\r\n".toList ++ r) :=
  notHead_cons (p := isSpaceTab) (a := Char.ofNat 13) (t := Char.ofNat 10 :: r)
    (by decide)

lemma serializeIpv6_shape (g1 : Nat) (rest : List Nat) :
    serializeIpv6 ⟨g1 :: rest⟩ = toHex 4 g1 ++ ipv6Tail rest := by
  simp only [serializeIpv6, List.map_cons, intercalate_colon_shape, ipv6Tail,
    List.map_map]
  rfl

lemma notHead_spaceTab_ipv6 (g1 : Nat) (rest : List Nat) (r : List Char) :
    NotHead isSpaceTab (serializeIpv6 ⟨g1 :: rest⟩ ++ r) := by
  rw [serializeIpv6_shape, List.append_assoc]
  exact notHead_spaceTab_toHex (by omega) _

lemma notHead_hex_crlfEnd : NotHead isHexDigitChar ("\r\n".toList) :=
  notHead_cons (p := isHexDigitChar) (a := Char.ofNat 13) (t := [Char.ofNat 10])
    (by decide)

lemma notHead_colon_crlfEnd : NotHead (fun c => ':' == c) ("\r\n".toList) :=
  notHead_cons (p := fun c => ':' == c) (a := Char.ofNat 13) (t := [Char.ofNat 10])
    (by decide)

lemma notHead_spaceTab_crlfEnd : NotHead isSpaceTab ("\r\n".toList) :=
  notHead_cons (p := isSpaceTab) (a := Char.ofNat 13) (t := [Char.ofNat 10])
    (by decide)

lemma popt_u8_err {r : List Char} (hr : NotHead isHexDigitChar r) :
    popt u8_hex_digit r = .ok r none := by
  have h1 : hexDigit1 r = .err := hexDigit1_notHexHead hr
  simp only [popt, u8_hex_digit, pmapRes, h1]

lemma popt_u8_run {n : Nat} {r : List Char} (hn : n < 256)
    (hr : NotHead isHexDigitChar r) :
    popt u8_hex_digit (toHex 2 n ++ r) = .ok r (some n) := by
  simp only [popt, u8_hex_run hn hr]

lemma notHead_spaceTab_hexFlat (data : List Nat) :
    NotHead isSpaceTab ((data.map (toHex 2)).flatten ++ "\r\n".toList) := by
  cases data with
  | nil => exact notHead_spaceTab_crlfEnd
  | cons b bs =>
    simp only [List.map_cons, List.flatten_cons, List.append_assoc]
    exact notHead_spaceTab_toHex (by omega) _

lemma parse_fail_roundtrip {code : Nat} (hcode : code < 256) :
    parse_rxd (serializeRxD (.fail code)) = .ok [] (.fail code) := by
  have hsp : NotHead isSpaceTab
      ("FAIL ER".toList ++ (toHex 2 code ++ "\r\n".toList)) :=
    notHead_cons (a := 'F') (by decide)
  have hcr : crlf ("FAIL ER".toList ++ (toHex 2 code ++ "\r\n".toList)) = .err :=
    crlf_err_head (t := "AIL ER".toList ++ (toHex 2 code ++ "\r\n".toList))
      (by decide)
  have hok : rx_ok ("FAIL ER".toList ++ (toHex 2 code ++ "\r\n".toList)) = .err := by
    have h1 : tagC ("OK".toList)
        ("FAIL ER".toList ++ (toHex 2 code ++ "\r\n".toList)) = .err :=
      tagC_err_head1 (t := "K".toList)
        (s := "AIL ER".toList ++ (toHex 2 code ++ "\r\n".toList)) (by decide)
    simp only [rx_ok, pbind, h1]
  have htag : tagC ("FAIL ER".toList)
      ("FAIL ER".toList ++ (toHex 2 code ++ "\r\n".toList))
      = .ok (toHex 2 code ++ "\r\n".toList) ("FAIL ER".toList) :=
    tagC_self ("FAIL ER".toList) (toHex 2 code ++ "\r\n".toList)
  have hu8 : u8_hex_digit2 (toHex 2 code ++ "\r\n".toList)
      = .ok ("\r\n".toList) code := u8_hex2_run hcode
  simp only [serializeRxD, parse_rxd, palt, pmap, pbind, List.append_assoc,
    space0_id hsp, hcr, hok]
  simp only [rx_fail, pbind, pmap, htag, hu8, crlf_end]

lemma parse_event_roundtrip {code : Nat} {gs : List Nat} {param : Option Nat}
    (hcode : code < 256) (hlen : gs.length = 8) (hg : ∀ g ∈ gs, g < 65536)
    (hp : ∀ p, param = some p → p < 256) :
    parse_rxd (serializeRxD (.event ⟨code, ⟨gs⟩, param⟩))
      = .ok [] (.event ⟨code, ⟨gs⟩, param⟩) := by
  obtain ⟨g1, rest, rfl⟩ : ∃ g1 rest, gs = g1 :: rest := by
    cases gs with
    | nil => simp at hlen
    | cons a l => exact ⟨a, l, rfl⟩
  cases param with
  | none =>
    have hsp : NotHead isSpaceTab
        ("EVENT ".toList ++ (toHex 2 code ++ (" ".toList
          ++ (serializeIpv6 ⟨g1 :: rest⟩ ++ "\r\n".toList)))) :=
      notHead_cons (a := 'E') (by decide)
    have hcr : crlf ("EVENT ".toList ++ (toHex 2 code ++ (" ".toList
        ++ (serializeIpv6 ⟨g1 :: rest⟩ ++ "\r\n".toList)))) = .err :=
      crlf_err_head (t := "VENT ".toList ++ (toHex 2 code ++ (" ".toList
        ++ (serializeIpv6 ⟨g1 :: rest⟩ ++ "\r\n".toList)))) (by decide)
    have hok : rx_ok ("EVENT ".toList ++ (toHex 2 code ++ (" ".toList
        ++ (serializeIpv6 ⟨g1 :: rest⟩ ++ "\r\n".toList)))) = .err := by
      have h1 : tagC ("OK".toList)
          ("EVENT ".toList ++ (toHex 2 code ++ (" ".toList
            ++ (serializeIpv6 ⟨g1 :: rest⟩ ++ "\r\n".toList)))) = .err :=
        tagC_err_head1 (t := "K".toList)
          (s := "VENT ".toList ++ (toHex 2 code ++ (" ".toList
            ++ (serializeIpv6 ⟨g1 :: rest⟩ ++ "\r\n".toList)))) (by decide)
      simp only [rx_ok, pbind, h1]
    have hfail : rx_fail ("EVENT ".toList ++ (toHex 2 code ++ (" ".toList
        ++ (serializeIpv6 ⟨g1 :: rest⟩ ++ "\r\n".toList)))) = .err := by
      have h1 : tagC ("FAIL ER".toList)
          ("EVENT ".toList ++ (toHex 2 code ++ (" ".toList
            ++ (serializeIpv6 ⟨g1 :: rest⟩ ++ "\r\n".toList)))) = .err :=
        tagC_err_head1 (t := "AIL ER".toList)
          (s := "VENT ".toList ++ (toHex 2 code ++ (" ".toList
            ++ (serializeIpv6 ⟨g1 :: rest⟩ ++ "\r\n".toList)))) (by decide)
      simp only [rx_fail, pbind, h1]
    have htag : tagC ("EVENT".toList)
        ("EVENT ".toList ++ (toHex 2 code ++ (" ".toList
          ++ (serializeIpv6 ⟨g1 :: rest⟩ ++ "\r\n".toList))))
        = .ok (" ".toList ++ (toHex 2 code ++ (" ".toList
          ++ (serializeIpv6 ⟨g1 :: rest⟩ ++ "\r\n".toList)))) ("EVENT".toList) :=
      tagC_self ("EVENT".toList) (" ".toList ++ (toHex 2 code ++ (" ".toList
        ++ (serializeIpv6 ⟨g1 :: rest⟩ ++ "\r\n".toList))))
    have hs1 : space1 (" ".toList ++ (toHex 2 code ++ (" ".toList
        ++ (serializeIpv6 ⟨g1 :: rest⟩ ++ "\r\n".toList))))
        = .ok (toHex 2 code ++ (" ".toList
          ++ (serializeIpv6 ⟨g1 :: rest⟩ ++ "\r\n".toList))) (" ".toList) :=
      space1_single (notHead_spaceTab_toHex (by omega) _)
    have hu8 : u8_hex_digit (toHex 2 code ++ (" ".toList
        ++ (serializeIpv6 ⟨g1 :: rest⟩ ++ "\r\n".toList)))
        = .ok (" ".toList ++ (serializeIpv6 ⟨g1 :: rest⟩ ++ "\r\n".toList)) code :=
      u8_hex_run hcode (notHead_hex_space _)
    have hs2 : space1 (" ".toList ++ (serializeIpv6 ⟨g1 :: rest⟩ ++ "\r\n".toList))
        = .ok (serializeIpv6 ⟨g1 :: rest⟩ ++ "\r\n".toList) (" ".toList) :=
      space1_single (notHead_spaceTab_ipv6 g1 rest _)
    have hip : ipv6addr (serializeIpv6 ⟨g1 :: rest⟩ ++ "\r\n".toList)
        = .ok ("\r\n".toList) ⟨g1 :: rest⟩ :=
      ipv6addr_run hlen hg notHead_hex_crlfEnd notHead_colon_crlfEnd
    have hs0 : space0 ("\r\n".toList) = .ok ("\r\n".toList) [] :=
      space0_id notHead_spaceTab_crlfEnd
    have hpo : popt u8_hex_digit ("\r\n".toList) = .ok ("\r\n".toList) none :=
      popt_u8_err notHead_hex_crlfEnd
    simp only [serializeRxD, parse_rxd, palt, pmap, pbind, List.append_assoc,
      List.append_nil, List.nil_append, space0_id hsp, hcr, hok, hfail]
    simp only [rx_event, pbind, pmap, htag, hs1, hu8, hs2, hip, hs0, hpo,
      crlf_end]
  | some p =>
    have hplt : p < 256 := hp p rfl
    have hsp : NotHead isSpaceTab
        ("EVENT ".toList ++ (toHex 2 code ++ (" ".toList
          ++ (serializeIpv6 ⟨g1 :: rest⟩ ++ (" ".toList
            ++ (toHex 2 p ++ "\r\n".toList)))))) :=
      notHead_cons (a := 'E') (by decide)
    have hcr : crlf ("EVENT ".toList ++ (toHex 2 code ++ (" ".toList
        ++ (serializeIpv6 ⟨g1 :: rest⟩ ++ (" ".toList
          ++ (toHex 2 p ++ "\r\n".toList)))))) = .err :=
      crlf_err_head (t := "VENT ".toList ++ (toHex 2 code ++ (" ".toList
        ++ (serializeIpv6 ⟨g1 :: rest⟩ ++ (" ".toList
          ++ (toHex 2 p ++ "\r\n".toList)))))) (by decide)
    have hok : rx_ok ("EVENT ".toList ++ (toHex 2 code ++ (" ".toList
        ++ (serializeIpv6 ⟨g1 :: rest⟩ ++ (" ".toList
          ++ (toHex 2 p ++ "\r\n".toList)))))) = .err := by
      have h1 : tagC ("OK".toList)
          ("EVENT ".toList ++ (toHex 2 code ++ (" ".toList
            ++ (serializeIpv6 ⟨g1 :: rest⟩ ++ (" ".toList
              ++ (toHex 2 p ++ "\r\n".toList)))))) = .err :=
        tagC_err_head1 (t := "K".toList)
          (s := "VENT ".toList ++ (toHex 2 code ++ (" ".toList
            ++ (serializeIpv6 ⟨g1 :: rest⟩ ++ (" ".toList
              ++ (toHex 2 p ++ "\r\n".toList)))))) (by decide)
      simp only [rx_ok, pbind, h1]
    have hfail : rx_fail ("EVENT ".toList ++ (toHex 2 code ++ (" ".toList
        ++ (serializeIpv6 ⟨g1 :: rest⟩ ++ (" ".toList
          ++ (toHex 2 p ++ "\r\n".toList)))))) = .err := by
      have h1 : tagC ("FAIL ER".toList)
          ("EVENT ".toList ++ (toHex 2 code ++ (" ".toList
            ++ (serializeIpv6 ⟨g1 :: rest⟩ ++ (" ".toList
              ++ (toHex 2 p ++ "\r\n".toList)))))) = .err :=
        tagC_err_head1 (t := "AIL ER".toList)
          (s := "VENT ".toList ++ (toHex 2 code ++ (" ".toList
            ++ (serializeIpv6 ⟨g1 :: rest⟩ ++ (" ".toList
              ++ (toHex 2 p ++ "\r\n".toList)))))) (by decide)
      simp only [rx_fail, pbind, h1]
    have htag : tagC ("EVENT".toList)
        ("EVENT ".toList ++ (toHex 2 code ++ (" ".toList
          ++ (serializeIpv6 ⟨g1 :: rest⟩ ++ (" ".toList
            ++ (toHex 2 p ++ "\r\n".toList))))))
        = .ok (" ".toList ++ (toHex 2 code ++ (" ".toList
          ++ (serializeIpv6 ⟨g1 :: rest⟩ ++ (" ".toList
            ++ (toHex 2 p ++ "\r\n".toList)))))) ("EVENT".toList) :=
      tagC_self ("EVENT".toList) (" ".toList ++ (toHex 2 code ++ (" ".toList
        ++ (serializeIpv6 ⟨g1 :: rest⟩ ++ (" ".toList
          ++ (toHex 2 p ++ "\r\n".toList))))))
    have hs1 : space1 (" ".toList ++ (toHex 2 code ++ (" ".toList
        ++ (serializeIpv6 ⟨g1 :: rest⟩ ++ (" ".toList
          ++ (toHex 2 p ++ "\r\n".toList))))))
        = .ok (toHex 2 code ++ (" ".toList
          ++ (serializeIpv6 ⟨g1 :: rest⟩ ++ (" ".toList
            ++ (toHex 2 p ++ "\r\n".toList))))) (" ".toList) :=
      space1_single (notHead_spaceTab_toHex (by omega) _)
    have hu8 : u8_hex_digit (toHex 2 code ++ (" ".toList
        ++ (serializeIpv6 ⟨g1 :: rest⟩ ++ (" ".toList
          ++ (toHex 2 p ++ "\r\n".toList)))))
        = .ok (" ".toList ++ (serializeIpv6 ⟨g1 :: rest⟩ ++ (" ".toList
          ++ (toHex 2 p ++ "\r\n".toList)))) code :=
      u8_hex_run hcode (notHead_hex_space _)
    have hs2 : space1 (" ".toList ++ (serializeIpv6 ⟨g1 :: rest⟩ ++ (" ".toList
        ++ (toHex 2 p ++ "\r\n".toList))))
        = .ok (serializeIpv6 ⟨g1 :: rest⟩ ++ (" ".toList
          ++ (toHex 2 p ++ "\r\n".toList))) (" ".toList) :=
      space1_single (notHead_spaceTab_ipv6 g1 rest _)
    have hip : ipv6addr (serializeIpv6 ⟨g1 :: rest⟩ ++ (" ".toList
        ++ (toHex 2 p ++ "\r\n".toList)))
        = .ok (" ".toList ++ (toHex 2 p ++ "\r\n".toList)) ⟨g1 :: rest⟩ :=
      ipv6addr_run hlen hg (notHead_hex_space _) (notHead_colon_space _)
    have hs0 : space0 (" ".toList ++ (toHex 2 p ++ "\r\n".toList))
        = .ok (toHex 2 p ++ "\r\n".toList) (" ".toList) :=
      space0_single (notHead_spaceTab_toHex (by omega) _)
    have hpo : popt u8_hex_digit (toHex 2 p ++ "\r\n".toList)
        = .ok ("\r\n".toList) (some p) :=
      popt_u8_run hplt notHead_hex_crlfEnd
    simp only [serializeRxD, parse_rxd, palt, pmap, pbind, List.append_assoc,
      space0_id hsp, hcr, hok, hfail]
    simp only [rx_event, pbind, pmap, htag, hs1, hu8, hs2, hip, hs0, hpo,
      crlf_end]

lemma parse_erxudp_roundtrip {gs1 gs2 : List Nat}
    {sport dport slla sec dlen : Nat} {data : List Nat}
    (hlen1 : gs1.length = 8) (hg1 : ∀ g ∈ gs1, g < 65536)
    (hlen2 : gs2.length = 8) (hg2 : ∀ g ∈ gs2, g < 65536)
    (hsport : sport < 65536) (hdport : dport < 65536)
    (hslla : slla < 2 ^ 64) (hsec : sec < 256) (hdlen : dlen < 65536)
    (hdata : ByteList data) :
    parse_rxd (serializeRxD (.erxudp ⟨⟨gs1⟩, ⟨gs2⟩, sport, dport, slla,
        sec, dlen, data⟩))
      = .ok [] (.erxudp ⟨⟨gs1⟩, ⟨gs2⟩, sport, dport, slla, sec, dlen, data⟩) := by
  obtain ⟨a1, r1, rfl⟩ : ∃ a t, gs1 = a :: t := by
    cases gs1 with
    | nil => simp at hlen1
    | cons a l => exact ⟨a, l, rfl⟩
  obtain ⟨a2, r2, rfl⟩ : ∃ a t, gs2 = a :: t := by
    cases gs2 with
    | nil => simp at hlen2
    | cons a l => exact ⟨a, l, rfl⟩
  have e16p4 : (16 : Nat) ^ 4 = 65536 := by norm_num
  have e16p16 : (16 : Nat) ^ 16 = 18446744073709551616 := by norm_num
  have e2p64 : (2 : Nat) ^ 64 = 18446744073709551616 := by norm_num
  simp only [serializeRxD, List.append_assoc]
  set T8 := (data.map (toHex 2)).flatten ++ "\r\n".toList with hT8
  set T7 := toHex 4 dlen ++ (" ".toList ++ T8) with hT7
  set T6 := toHex 2 sec ++ (" ".toList ++ T7) with hT6
  set T5 := toHex 16 slla ++ (" ".toList ++ T6) with hT5
  set T4 := toHex 4 dport ++ (" ".toList ++ T5) with hT4
  set T3 := toHex 4 sport ++ (" ".toList ++ T4) with hT3
  set T2 := serializeIpv6 ⟨a2 :: r2⟩ ++ (" ".toList ++ T3) with hT2
  set T1 := serializeIpv6 ⟨a1 :: r1⟩ ++ (" ".toList ++ T2) with hT1
  have hsp : NotHead isSpaceTab ("ERXUDP ".toList ++ T1) :=
    notHead_cons (a := 'E') (by decide)
  have hcr : crlf ("ERXUDP ".toList ++ T1) = .err :=
    crlf_err_head (t := "RXUDP ".toList ++ T1) (by decide)
  have hok : rx_ok ("ERXUDP ".toList ++ T1) = .err := by
    have h1 : tagC ("OK".toList) ("ERXUDP ".toList ++ T1) = .err :=
      tagC_err_head1 (t := "K".toList) (s := "RXUDP ".toList ++ T1) (by decide)
    simp only [rx_ok, pbind, h1]
  have hfail : rx_fail ("ERXUDP ".toList ++ T1) = .err := by
    have h1 : tagC ("FAIL ER".toList) ("ERXUDP ".toList ++ T1) = .err :=
      tagC_err_head1 (t := "AIL ER".toList) (s := "RXUDP ".toList ++ T1)
        (by decide)
    simp only [rx_fail, pbind, h1]
  have hevent : rx_event ("ERXUDP ".toList ++ T1) = .err := by
    have h1 : tagC ("EVENT".toList) ("ERXUDP ".toList ++ T1) = .err :=
      tagC_err_head2 (t := "ENT".toList) (s := "XUDP ".toList ++ T1) (by decide)
    simp only [rx_event, pbind, h1]
  have hepan : rx_epandesc ("ERXUDP ".toList ++ T1) = .err := by
    have h1 : tagC ("EPANDESC".toList) ("ERXUDP ".toList ++ T1) = .err :=
      tagC_err_head2 (t := "ANDESC".toList) (s := "XUDP ".toList ++ T1)
        (by decide)
    simp only [rx_epandesc, pbind, h1]
  have htag : tagC ("ERXUDP".toList) ("ERXUDP ".toList ++ T1)
      = .ok (" ".toList ++ T1) ("ERXUDP".toList) :=
    tagC_self ("ERXUDP".toList) (" ".toList ++ T1)
  have hs1 : space1 (" ".toList ++ T1) = .ok T1 (" ".toList) :=
    space1_single (by rw [hT1]; exact notHead_spaceTab_ipv6 a1 r1 _)
  have hip1 : ipv6addr T1 = .ok (" ".toList ++ T2) ⟨a1 :: r1⟩ := by
    rw [hT1]
    exact ipv6addr_run hlen1 hg1 (notHead_hex_space _) (notHead_colon_space _)
  have hs2 : space1 (" ".toList ++ T2) = .ok T2 (" ".toList) :=
    space1_single (by rw [hT2]; exact notHead_spaceTab_ipv6 a2 r2 _)
  have hip2 : ipv6addr T2 = .ok (" ".toList ++ T3) ⟨a2 :: r2⟩ := by
    rw [hT2]
    exact ipv6addr_run hlen2 hg2 (notHead_hex_space _) (notHead_colon_space _)
  have hs3 : space1 (" ".toList ++ T3) = .ok T3 (" ".toList) :=
    space1_single (by rw [hT3]; exact notHead_spaceTab_toHex (by omega) _)
  have hu16a : u16_hex_digit T3 = .ok (" ".toList ++ T4) sport := by
    rw [hT3]
    exact u16_hex_run (by omega) hsport (by omega) (notHead_hex_space _)
  have hs4 : space1 (" ".toList ++ T4) = .ok T4 (" ".toList) :=
    space1_single (by rw [hT4]; exact notHead_spaceTab_toHex (by omega) _)
  have hu16b : u16_hex_digit T4 = .ok (" ".toList ++ T5) dport := by
    rw [hT4]
    exact u16_hex_run (by omega) hdport (by omega) (notHead_hex_space _)
  have hs5 : space1 (" ".toList ++ T5) = .ok T5 (" ".toList) :=
    space1_single (by rw [hT5]; exact notHead_spaceTab_toHex (by omega) _)
  have hu64 : u64_hex_digit T5 = .ok (" ".toList ++ T6) slla := by
    rw [hT5]
    exact u64_hex_run (by omega) hslla (by omega) (notHead_hex_space _)
  have hs6 : space1 (" ".toList ++ T6) = .ok T6 (" ".toList) :=
    space1_single (by rw [hT6]; exact notHead_spaceTab_toHex (by omega) _)
  have hu8 : u8_hex_digit T6 = .ok (" ".toList ++ T7) sec := by
    rw [hT6]
    exact u8_hex_run hsec (notHead_hex_space _)
  have hs7 : space1 (" ".toList ++ T7) = .ok T7 (" ".toList) :=
    space1_single (by rw [hT7]; exact notHead_spaceTab_toHex (by omega) _)
  have hu16c : u16_hex_digit T7 = .ok (" ".toList ++ T8) dlen := by
    rw [hT7]
    exact u16_hex_run (by omega) hdlen (by omega) (notHead_hex_space _)
  have hs8 : space1 (" ".toList ++ T8) = .ok T8 (" ".toList) :=
    space1_single (by rw [hT8]; exact notHead_spaceTab_hexFlat data)
  have hmany : many0 u8_hex_digit2 T8 = .ok ("\r\n".toList) data := by
    rw [hT8]
    exact many0_hexpairs hdata notHead_hex_crlfEnd
  simp only [parse_rxd, palt, pmap, pbind, space0_id hsp, hcr, hok, hfail,
    hevent, hepan]
  simp only [rx_erxudp, pbind, pmap, htag, hs1, hip1, hs2, hip2, hs3, hu16a,
    hs4, hu16b, hs5, hu64, hs6, hu8, hs7, hu16c, hs8, hmany, crlf_end]

lemma parse_epandesc_roundtrip {ch cp pan addr lqi pair : Nat}
    (hch : ch < 256) (hcp : cp < 256) (hpan : pan < 65536)
    (haddr : addr < 2 ^ 64) (hlqi : lqi < 256) (hpair : pair < 2 ^ 32) :
    parse_rxd (serializeRxD (.epandesc ⟨ch, cp, pan, addr, lqi, pair⟩))
      = .ok [] (.epandesc ⟨ch, cp, pan, addr, lqi, pair⟩) := by
  have e16p2 : (16 : Nat) ^ 2 = 256 := by norm_num
  have e16p4 : (16 : Nat) ^ 4 = 65536 := by norm_num
  have e16p8 : (16 : Nat) ^ 8 = 4294967296 := by norm_num
  have e16p16 : (16 : Nat) ^ 16 = 18446744073709551616 := by norm_num
  have e2p32 : (2 : Nat) ^ 32 = 4294967296 := by norm_num
  have e2p64 : (2 : Nat) ^ 64 = 18446744073709551616 := by norm_num
  simp only [serializeRxD, List.append_assoc]
  set T6 := "  PairID:".toList ++ (toHex 8 pair ++ "\r\n".toList) with hT6
  set T5 := "  LQI:".toList ++ (toHex 2 lqi ++ ("\r\n".toList ++ T6)) with hT5
  set T4 := "  Addr:".toList ++ (toHex 16 addr ++ ("\r\n".toList ++ T5)) with hT4
  set T3 := "  Pan ID:".toList ++ (toHex 4 pan ++ ("\r\n".toList ++ T4)) with hT3
  set T2 := "  Channel Page:".toList ++ (toHex 2 cp ++ ("\r\n".toList ++ T3))
    with hT2
  set T1 := "  Channel:".toList ++ (toHex 2 ch ++ ("\r\n".toList ++ T2)) with hT1
  have hsp : NotHead isSpaceTab ("EPANDESC\r\n".toList ++ T1) :=
    notHead_cons (a := 'E') (by decide)
  have hcr : crlf ("EPANDESC\r\n".toList ++ T1) = .err :=
    crlf_err_head (t := "PANDESC\r\n".toList ++ T1) (by decide)
  have hok : rx_ok ("EPANDESC\r\n".toList ++ T1) = .err := by
    have h1 : tagC ("OK".toList) ("EPANDESC\r\n".toList ++ T1) = .err :=
      tagC_err_head1 (t := "K".toList) (s := "PANDESC\r\n".toList ++ T1)
        (by decide)
    simp only [rx_ok, pbind, h1]
  have hfail : rx_fail ("EPANDESC\r\n".toList ++ T1) = .err := by
    have h1 : tagC ("FAIL ER".toList) ("EPANDESC\r\n".toList ++ T1) = .err :=
      tagC_err_head1 (t := "AIL ER".toList) (s := "PANDESC\r\n".toList ++ T1)
        (by decide)
    simp only [rx_fail, pbind, h1]
  have hevent : rx_event ("EPANDESC\r\n".toList ++ T1) = .err := by
    have h1 : tagC ("EVENT".toList) ("EPANDESC\r\n".toList ++ T1) = .err :=
      tagC_err_head2 (t := "ENT".toList) (s := "ANDESC\r\n".toList ++ T1)
        (by decide)
    simp only [rx_event, pbind, h1]
  have htag : tagC ("EPANDESC".toList) ("EPANDESC\r\n".toList ++ T1)
      = .ok ("\r\n".toList ++ T1) ("EPANDESC".toList) :=
    tagC_self ("EPANDESC".toList) ("\r\n".toList ++ T1)
  have hts1 : tagS ("  ".toList) T1
      = .ok ("Channel:".toList ++ (toHex 2 ch ++ ("\r\n".toList ++ T2)))
        ("  ".toList) := by
    rw [hT1]
    exact tagS_self ("  ".toList)
      ("Channel:".toList ++ (toHex 2 ch ++ ("\r\n".toList ++ T2)))
  have hu1 : u64_hex_digit (toHex 2 ch ++ ("\r\n".toList ++ T2))
      = .ok ("\r\n".toList ++ T2) ch :=
    u64_hex_run (by omega) (by omega) (by omega) (notHead_hex_crlf _)
  have hts2 : tagS ("  ".toList) T2
      = .ok ("Channel Page:".toList ++ (toHex 2 cp ++ ("\r\n".toList ++ T3)))
        ("  ".toList) := by
    rw [hT2]
    exact tagS_self ("  ".toList)
      ("Channel Page:".toList ++ (toHex 2 cp ++ ("\r\n".toList ++ T3)))
  have hu2 : u64_hex_digit (toHex 2 cp ++ ("\r\n".toList ++ T3))
      = .ok ("\r\n".toList ++ T3) cp :=
    u64_hex_run (by omega) (by omega) (by omega) (notHead_hex_crlf _)
  have hts3 : tagS ("  ".toList) T3
      = .ok ("Pan ID:".toList ++ (toHex 4 pan ++ ("\r\n".toList ++ T4)))
        ("  ".toList) := by
    rw [hT3]
    exact tagS_self ("  ".toList)
      ("Pan ID:".toList ++ (toHex 4 pan ++ ("\r\n".toList ++ T4)))
  have hu3 : u64_hex_digit (toHex 4 pan ++ ("\r\n".toList ++ T4))
      = .ok ("\r\n".toList ++ T4) pan :=
    u64_hex_run (by omega) (by omega) (by omega) (notHead_hex_crlf _)
  have hts4 : tagS ("  ".toList) T4
      = .ok ("Addr:".toList ++ (toHex 16 addr ++ ("\r\n".toList ++ T5)))
        ("  ".toList) := by
    rw [hT4]
    exact tagS_self ("  ".toList)
      ("Addr:".toList ++ (toHex 16 addr ++ ("\r\n".toList ++ T5)))
  have hu4 : u64_hex_digit (toHex 16 addr ++ ("\r\n".toList ++ T5))
      = .ok ("\r\n".toList ++ T5) addr :=
    u64_hex_run (by omega) (by omega) (by omega) (notHead_hex_crlf _)
  have hts5 : tagS ("  ".toList) T5
      = .ok ("LQI:".toList ++ (toHex 2 lqi ++ ("\r\n".toList ++ T6)))
        ("  ".toList) := by
    rw [hT5]
    exact tagS_self ("  ".toList)
      ("LQI:".toList ++ (toHex 2 lqi ++ ("\r\n".toList ++ T6)))
  have hu5 : u64_hex_digit (toHex 2 lqi ++ ("\r\n".toList ++ T6))
      = .ok ("\r\n".toList ++ T6) lqi :=
    u64_hex_run (by omega) (by omega) (by omega) (notHead_hex_crlf _)
  have hts6 : tagS ("  ".toList) T6
      = .ok ("PairID:".toList ++ (toHex 8 pair ++ "\r\n".toList))
        ("  ".toList) := by
    rw [hT6]
    exact tagS_self ("  ".toList)
      ("PairID:".toList ++ (toHex 8 pair ++ "\r\n".toList))
  have hu6 : u64_hex_digit (toHex 8 pair ++ "\r\n".toList)
      = .ok ("\r\n".toList) pair :=
    u64_hex_run (by omega) (by omega) (by omega) notHead_hex_crlfEnd
  simp only [parse_rxd, palt, pmap, pbind, space0_id hsp, hcr, hok, hfail,
    hevent]
  simp only [rx_epandesc, pbind, pmap, htag, crlf_run, hts1, tagC_self, hu1,
    hts2, hu2, hts3, hu3, hts4, hu4, hts5, hu5, hts6, hu6, crlf_end]
  rw [Nat.mod_eq_of_lt hch, Nat.mod_eq_of_lt hcp, Nat.mod_eq_of_lt hpan,
    Nat.mod_eq_of_lt hlqi, Nat.mod_eq_of_lt hpair]

/-- The seven lines of the `EPANDESC` fixture used by the parser tests
(`src/skstack/parser.rs`). -/
def epandescExampleLines : List (List Char) :=
  ["EPANDESC\r\n".toList,
   "  Channel:3B\r\n".toList,
   "  Channel Page:09\r\n".toList,
   "  Pan ID:ABCD\r\n".toList,
   "  Addr:12345678ABCDABCD\r\n".toList,
   "  LQI:84\r\n".toList,
   "  PairID:1234ABCD\r\n".toList]

/-- C5.  Serialisation and parsing over the §4.1 grammar: every record whose
fields satisfy the grammar's width bounds parses back exactly from its full
canonical serialisation, with nothing left over; and during a multi-line
`EPANDESC` response the parser reports *incomplete* (asking for more input)
precisely at the line boundaries — after each of the first six lines it
returns `incomplete 2` for the missing two-space indent of the next line —
while the complete seven-line response parses to the `EPANDESC` record.
(Strict prefixes that cut a line in the middle instead give a recoverable
error, as `parser_prefix_counterexample` shows for `OK` without CRLF.) -/
theorem parse_serialize_roundtrip :
    (∀ r, WfSkRxD r → parse_rxd (serializeRxD r) = .ok [] r)
  ∧ (∀ k, 1 ≤ k → k ≤ 6 →
      parse_rxd ((epandescExampleLines.take k).flatten) = .incomplete 2)
  ∧ parse_rxd (epandescExampleLines.flatten)
      = .ok [] (.epandesc ⟨0x3B, 0x09, 0xABCD, 0x12345678ABCDABCD, 0x84,
          0x1234ABCD⟩) := by
  refine ⟨?_, ?_, ?_⟩
  · intro r hw
    cases r with
    | void => decide
    | ok => decide
    | fail code => exact parse_fail_roundtrip hw
    | event ev =>
      obtain ⟨code, ⟨gs⟩, param⟩ := ev
      obtain ⟨hcode, ⟨hlen, hg⟩, hp⟩ := hw
      exact parse_event_roundtrip hcode hlen hg hp
    | epandesc ep =>
      obtain ⟨ch, cp, pan, addr, lqi, pair⟩ := ep
      obtain ⟨hch, hcp, hpan, haddr, hlqi, hpair⟩ := hw
      exact parse_epandesc_roundtrip hch hcp hpan haddr hlqi hpair
    | erxudp er =>
      obtain ⟨⟨gs1⟩, ⟨gs2⟩, sport, dport, slla, sec, dlen, data⟩ := er
      obtain ⟨⟨hlen1, hg1⟩, ⟨hlen2, hg2⟩, hsport, hdport, hslla, hsec,
        hdlen, hdata⟩ := hw
      exact parse_erxudp_roundtrip hlen1 hg1 hlen2 hg2 hsport hdport hslla
        hsec hdlen hdata
  · intro k hk1 hk6
    interval_cases k <;> decide
  · decide

/-- Witness for `parse_serialize_roundtrip`: the concrete `FAIL ER10` record
round-trips through its serialisation. -/
theorem parse_serialize_roundtrip_witness :
    parse_rxd (serializeRxD (.fail 16)) = .ok [] (.fail 16) :=
  parse_serialize_roundtrip.1 (.fail 16) (by show 16 < 256; decide)

end Uchino
